import Mathlib

/-!
Verification of the resolution and configuration core of geoip-web-api.

The development shallowly embeds the TypeScript sources (`src/db.ts`,
`src/utils.ts`, `src/options.ts`, `src/cors.ts`) and the legacy JavaScript
`options.js` into Lean.  External npm libraries (`net.isIP`, the WHATWG `URL`
class, JS `RegExp`) are modelled explicitly where theorems need to evaluate
them, and are parametrised where only their result matters.  String scanning
is done over `List Char` so that all definitions reduce in the kernel.
-/

namespace GeoipWebApi

/-! ## JS object primitives

A JS object is modelled as an association list in insertion order.
Property assignment (`o[k] = v`) updates an existing key in place and
otherwise appends; `delete o[k]` removes the entry. -/

/-- Property assignment on a JS object: update in place, else append. -/
def objSet {V : Type} : List (String × V) → String → V → List (String × V)
  | [], k, v => [(k, v)]
  | (k0, v0) :: rest, k, v =>
      if k0 = k then (k0, v) :: rest else (k0, v0) :: objSet rest k v

/-- Property read on a JS object (first matching key). -/
def objGet {V : Type} : List (String × V) → String → Option V
  | [], _ => none
  | (k0, v0) :: rest, k => if k0 = k then some v0 else objGet rest k

/-- Keys of a JS object, in insertion order. -/
def objKeys {V : Type} (m : List (String × V)) : List String := m.map Prod.fst

/-! ## Character-list string helpers (kernel-reducible) -/

/-- Split a character list at every occurrence of a separator character. -/
def splitOnCharAux (sep : Char) : List Char → List Char → List (List Char)
  | [], acc => [acc.reverse]
  | c :: cs, acc =>
      if c = sep then acc.reverse :: splitOnCharAux sep cs []
      else splitOnCharAux sep cs (c :: acc)

/-- Split a character list on a separator character (like `split(sep)`). -/
def splitOnChar (cs : List Char) (sep : Char) : List (List Char) :=
  splitOnCharAux sep cs []

/-- Numeric value of a list of decimal digits. -/
def charsToNat (cs : List Char) : Nat :=
  cs.foldl (fun n c => n * 10 + (c.toNat - '0'.toNat)) 0

/-- Whitespace for the purposes of JS `String.prototype.trim`. -/
def isJsSpace (c : Char) : Bool :=
  c = ' ' || c = '\t' || c = '\n' || c = '\r'

/-- Model of JS `s.trim()`: strip leading and trailing whitespace. -/
def jsTrim (s : String) : String :=
  ((s.toList.dropWhile isJsSpace).reverse.dropWhile isJsSpace).reverse.asString

/-- ASCII lower-casing of one character (JS `toLowerCase` on header names). -/
def asciiLowerChar (c : Char) : Char :=
  if 'A' ≤ c && c ≤ 'Z' then Char.ofNat (c.toNat + 32) else c

/-- ASCII lower-casing of a string. -/
def asciiLower (s : String) : String :=
  (s.toList.map asciiLowerChar).asString

/-! ## Model of `net.isIP` (external Node library)

Modelled from Node's `net.isIP`: an IPv4 dotted quad of decimal octets
0-255 without leading zeros classifies as 4; otherwise a colon-separated
IPv6 literal (hex groups of 1-4 digits, at most one `::` compression)
classifies as 6; anything else as 0.  Embedded-IPv4 tails and zone ids of
IPv6 literals are not modelled; no claim depends on them. -/

/-- Decimal octet of an IPv4 dotted quad, per Node's IPv4 pattern. -/
def isV4Octet (cs : List Char) : Bool :=
  decide (1 ≤ cs.length ∧ cs.length ≤ 3) && cs.all Char.isDigit &&
  (decide (cs.length = 1) || decide (cs.headD '0' ≠ '0')) &&
  decide (charsToNat cs ≤ 255)

/-- IPv4 dotted-quad test. -/
def isIPv4 (cs : List Char) : Bool :=
  let parts := splitOnChar cs '.'
  decide (parts.length = 4) && parts.all isV4Octet

/-- Hex group of an IPv6 literal: 1-4 hex digits. -/
def isV6Group (cs : List Char) : Bool :=
  decide (1 ≤ cs.length ∧ cs.length ≤ 4) &&
  cs.all (fun c => c.isDigit || ('a' ≤ c && c ≤ 'f') || ('A' ≤ c && c ≤ 'F'))

/-- Split a character list at the first `::`, if any. -/
def splitDColonAux : List Char → List Char → Option (List Char × List Char)
  | [], _ => none
  | ':' :: ':' :: cs, acc => some (acc.reverse, cs)
  | c :: cs, acc => splitDColonAux cs (c :: acc)

/-- Simplified IPv6 literal test. -/
def isIPv6 (cs : List Char) : Bool :=
  match splitDColonAux cs [] with
  | none =>
      let groups := splitOnChar cs ':'
      decide (groups.length = 8) && groups.all isV6Group
  | some (l, r) =>
      let lg := if l.isEmpty then [] else splitOnChar l ':'
      let rg := if r.isEmpty then [] else splitOnChar r ':'
      decide (lg.length + rg.length ≤ 7) && lg.all isV6Group && rg.all isV6Group

/-- Classification of an IP string: 4, 6 or 0 (invalid). -/
def isIP (s : String) : Nat :=
  if isIPv4 s.toList then 4 else if isIPv6 s.toList then 6 else 0

/-! ## Model of `src/db.ts`

`GwaDb.lookup` and `GwaDb.geoIpApiResponse`.  The database adapter
(`db-interface`, not part of the claims) is parametrised: `get` is its
asynchronous point lookup (resolved value), `getStringValue` its field
extractor; the opaque backend record type is a type parameter `R`. -/

/-- Value stored in a shaped response: string, number, or the raw record. -/
inductive GeoValue (R : Type) where
  | vStr (s : String)
  | vNum (n : Nat)
  | vData (r : R)
  deriving DecidableEq

/-- Shaped response object: JS object from output name to value. -/
abbrev GeoIpApiResponse (R : Type) := List (String × GeoValue R)

/-- JS `x || d` for a string-or-null value. -/
def jsOrString (v : Option String) (d : String) : String :=
  match v with
  | some s => if s = "" then d else s
  | none => d

/-- JS `x || d` for a number-or-null value. -/
def jsOrNat (v : Option Nat) (d : Nat) : Nat :=
  match v with
  | some n => if n = 0 then d else n
  | none => d

/-- Body of the `forEach` in `GwaDb.geoIpApiResponse` (src/db.ts lines 123-145):
how one enabled output updates the response object under construction. -/
def responseStep {R : Type} (getStringValue : Option R → String → Option String)
    (dbResult : Option R) (ip : Option String) (ipVersion : Option Nat)
    (ret : GeoIpApiResponse R) (output : String) : GeoIpApiResponse R :=
  match output with
  | "ip" => objSet ret output (.vStr (jsOrString ip ""))
  | "ip_version" => objSet ret output (.vNum (jsOrNat ipVersion 0))
  | "country" | "subdivision" =>
      match getStringValue dbResult output with
      | some value => objSet ret output (.vStr value)
      | none => ret
  | "data" =>
      match dbResult with
      | some r => objSet ret output (.vData r)
      | none => ret
  | _ => ret

/-- Embedding of `GwaDb.geoIpApiResponse` (src/db.ts lines 116-148):
build the shaped response by iterating the enabled outputs in order. -/
def geoIpApiResponse {R : Type} (getStringValue : Option R → String → Option String)
    (enabledOutputs : List String) (dbResult : Option R)
    (ip : Option String) (ipVersion : Option Nat) : GeoIpApiResponse R :=
  enabledOutputs.foldl (responseStep getStringValue dbResult ip ipVersion) []

/-- Embedding of `LookupResponse` from src/server.ts as used by db.ts. -/
structure LookupResponse (R : Type) where
  error : Option String
  geoIpApiResponse : GeoIpApiResponse R
  deriving DecidableEq

/-- The outputs that need no database (src/db.ts line 92). -/
def ipOutputs : List String := ["ip", "ip_version"]

/-- Embedding of the `isDbNeeded` computation (src/db.ts lines 93-94). -/
def isDbNeeded (enabledOutputs : List String) : Bool :=
  (enabledOutputs.filter (fun option => !(ipOutputs.contains option))).length > 0

/-- Embedding of `GwaDb.lookup` (src/db.ts lines 78-108). -/
def lookup {R : Type} (get : String → Option R)
    (getStringValue : Option R → String → Option String)
    (enabledOutputs : List String) (ip : String) : LookupResponse R :=
  let ipVersion := isIP ip
  let ret : LookupResponse R :=
    { error := none
      geoIpApiResponse :=
        geoIpApiResponse getStringValue enabledOutputs none (some ip) (some ipVersion) }
  if ipVersion = 0 then { ret with error := some ("Invalid IP: " ++ ip) }
  else if !(isDbNeeded enabledOutputs) then ret
  else
    match get ip with
    | none => { ret with error := some ("Failed to search database for IP: " ++ ip) }
    | some dbResult =>
        { ret with
          geoIpApiResponse :=
            geoIpApiResponse getStringValue enabledOutputs (some dbResult)
              (some ip) (some ipVersion) }

example : isIP "8.8.8.8" = 4 := by decide
example : isIP "999.1.1.1" = 0 := by decide
example : isIP "2001:db8::1" = 6 := by decide
example : isIP "" = 0 := by decide
example :
    lookup (R := Unit) (fun _ => none) (fun _ _ => none) ["ip_version"] "8.8.8.8" =
      { error := none, geoIpApiResponse := [("ip_version", .vNum 4)] } := by decide

/-! ## Derived facts about the response shape -/

/-- Value that an enabled output contributes to the shaped response, if any
(none for unresolved or unrecognized outputs). -/
def producedValue {R : Type} (getStringValue : Option R → String → Option String)
    (dbResult : Option R) (ip : Option String) (ipVersion : Option Nat)
    (k : String) : Option (GeoValue R) :=
  match k with
  | "ip" => some (.vStr (jsOrString ip ""))
  | "ip_version" => some (.vNum (jsOrNat ipVersion 0))
  | "country" | "subdivision" => (getStringValue dbResult k).map .vStr
  | "data" => dbResult.map .vData
  | _ => none

theorem objGet_objSet_self {V : Type} (m : List (String × V)) (k : String) (v : V) :
    objGet (objSet m k v) k = some v := by
  induction m with
  | nil => simp [objSet, objGet]
  | cons hd tl ih =>
      obtain ⟨k0, v0⟩ := hd
      by_cases h : k0 = k <;> simp [objSet, objGet, h, ih]

theorem objGet_objSet_ne {V : Type} (m : List (String × V)) (k q : String) (v : V)
    (h : q ≠ k) : objGet (objSet m k v) q = objGet m q := by
  induction m with
  | nil => simp [objSet, objGet, Ne.symm h]
  | cons hd tl ih =>
      obtain ⟨k0, v0⟩ := hd
      by_cases h0 : k0 = k <;> by_cases h1 : k0 = q <;>
        simp_all [objSet, objGet]

theorem objKeys_objSet {V : Type} (m : List (String × V)) (k : String) (v : V) :
    objKeys (objSet m k v) =
      if k ∈ objKeys m then objKeys m else objKeys m ++ [k] := by
  induction m with
  | nil => simp [objSet, objKeys]
  | cons hd tl ih =>
      obtain ⟨k0, v0⟩ := hd
      by_cases h : k0 = k
      · subst h; simp [objSet, objKeys]
      · have hne : ¬ k = k0 := fun e => h e.symm
        have hstep : objSet ((k0, v0) :: tl) k v = (k0, v0) :: objSet tl k v := by
          simp [objSet, h]
        rw [hstep]
        show k0 :: objKeys (objSet tl k v) = _
        rw [ih]
        by_cases hk : k ∈ objKeys tl
        · have hkc : k ∈ objKeys ((k0, v0) :: tl) := by
            show k ∈ k0 :: objKeys tl
            exact List.mem_cons_of_mem _ hk
          rw [if_pos hk, if_pos hkc]
          rfl
        · have hkc : k ∉ objKeys ((k0, v0) :: tl) := by
            show k ∉ k0 :: objKeys tl
            simp [List.mem_cons, hne, hk]
          rw [if_neg hk, if_neg hkc]
          rfl

/-- The forEach body sets the produced value of the output, when there is one. -/
theorem responseStep_spec {R : Type} (gs : Option R → String → Option String)
    (db : Option R) (ip : Option String) (ipv : Option Nat)
    (ret : GeoIpApiResponse R) (o : String) :
    responseStep gs db ip ipv ret o =
      match producedValue gs db ip ipv o with
      | some v => objSet ret o v
      | none => ret := by
  unfold responseStep producedValue
  split <;>
    first
      | rfl
      | (rcases gs db _ with _ | s <;> rfl)
      | (rcases db with _ | r <;> rfl)

theorem responseStep_eq_objSet {R : Type} (gs : Option R → String → Option String)
    (db : Option R) (ip : Option String) (ipv : Option Nat)
    (ret : GeoIpApiResponse R) (o : String) (v : GeoValue R)
    (h : producedValue gs db ip ipv o = some v) :
    responseStep gs db ip ipv ret o = objSet ret o v := by
  rw [responseStep_spec, h]

theorem responseStep_eq_self {R : Type} (gs : Option R → String → Option String)
    (db : Option R) (ip : Option String) (ipv : Option Nat)
    (ret : GeoIpApiResponse R) (o : String)
    (h : producedValue gs db ip ipv o = none) :
    responseStep gs db ip ipv ret o = ret := by
  rw [responseStep_spec, h]

theorem objGet_foldl_responseStep {R : Type} (gs : Option R → String → Option String)
    (db : Option R) (ip : Option String) (ipv : Option Nat)
    (l : List String) (ret : GeoIpApiResponse R) (k : String) :
    objGet (l.foldl (responseStep gs db ip ipv) ret) k =
      match producedValue gs db ip ipv k with
      | some v => if k ∈ l then some v else objGet ret k
      | none => objGet ret k := by
  induction l generalizing ret with
  | nil => rcases producedValue gs db ip ipv k with _ | v <;> simp
  | cons o rest ih =>
      rw [List.foldl_cons, ih]
      by_cases hko : k = o
      · subst hko
        rcases hp : producedValue gs db ip ipv k with _ | v
        · rw [responseStep_eq_self _ _ _ _ _ _ hp]
        · rw [responseStep_eq_objSet _ _ _ _ _ _ _ hp]
          simp [objGet_objSet_self]
      · have hstep : objGet (responseStep gs db ip ipv ret o) k = objGet ret k := by
          rcases hpo : producedValue gs db ip ipv o with _ | w
          · rw [responseStep_eq_self _ _ _ _ _ _ hpo]
          · rw [responseStep_eq_objSet _ _ _ _ _ _ _ hpo]
            exact objGet_objSet_ne _ _ _ _ hko
        rcases hp : producedValue gs db ip ipv k with _ | v <;>
          simp [hstep, hko]

theorem objKeys_foldl_responseStep {R : Type} (gs : Option R → String → Option String)
    (db : Option R) (ip : Option String) (ipv : Option Nat)
    (l : List String) (ret : GeoIpApiResponse R) :
    objKeys (l.foldl (responseStep gs db ip ipv) ret) =
      l.foldl (fun acc o =>
        if (producedValue gs db ip ipv o).isSome then
          (if o ∈ acc then acc else acc ++ [o])
        else acc) (objKeys ret) := by
  induction l generalizing ret with
  | nil => rfl
  | cons o rest ih =>
      rw [List.foldl_cons, List.foldl_cons, ih]
      congr 1
      rcases hp : producedValue gs db ip ipv o with _ | v
      · rw [responseStep_eq_self _ _ _ _ _ _ hp]; simp [hp]
      · rw [responseStep_eq_objSet _ _ _ _ _ _ _ hp, objKeys_objSet]; simp [hp]

/-- Order-preserving first-occurrence deduplication, as performed by repeated
JS property assignment on a fresh object. -/
def dedupFirst (l : List String) : List String :=
  l.foldl (fun acc x => if x ∈ acc then acc else acc ++ [x]) []

theorem foldl_if_eq_foldl_filter {α β : Type} (p : α → Bool) (f : β → α → β) :
    ∀ (l : List α) (b : β),
      l.foldl (fun acc x => if p x then f acc x else acc) b =
        (l.filter p).foldl f b := by
  intro l
  induction l with
  | nil => intro b; rfl
  | cons x xs ih =>
      intro b
      by_cases h : p x = true <;> simp [List.filter_cons, h, ih]

theorem foldl_dedup_sublist : ∀ (l acc : List String),
    (l.foldl (fun acc x => if x ∈ acc then acc else acc ++ [x]) acc).Sublist
      (acc ++ l) := by
  intro l
  induction l with
  | nil => intro acc; simp
  | cons x xs ih =>
      intro acc
      rw [List.foldl_cons]
      by_cases h : x ∈ acc
      · simp only [if_pos h]
        exact (ih acc).trans
          (List.Sublist.append_left (List.sublist_cons_self x xs) acc)
      · simp only [if_neg h]
        have h2 := ih (acc ++ [x])
        rw [List.append_assoc] at h2
        simpa using h2

/-- Canonical output order stated by the specification. -/
def canonicalOutputs : List String :=
  ["ip", "ip_version", "country", "subdivision", "data"]

theorem objGet_isSome_iff_mem {V : Type} (m : List (String × V)) (k : String) :
    (objGet m k).isSome = true ↔ k ∈ objKeys m := by
  induction m with
  | nil => simp [objGet, objKeys]
  | cons hd tl ih =>
      obtain ⟨k0, v0⟩ := hd
      by_cases h : k0 = k
      · subst h; simp [objGet, objKeys]
      · have hne : ¬ k = k0 := fun e => h e.symm
        simp [objGet, objKeys, h, hne, ih]

theorem objGet_geoIpApiResponse {R : Type} (gs : Option R → String → Option String)
    (enabled : List String) (db : Option R) (ip : Option String) (ipv : Option Nat)
    (k : String) :
    objGet (geoIpApiResponse gs enabled db ip ipv) k =
      if k ∈ enabled then producedValue gs db ip ipv k else none := by
  unfold geoIpApiResponse
  rw [objGet_foldl_responseStep]
  rcases hp : producedValue gs db ip ipv k with _ | v
  · simp [objGet]
  · by_cases hm : k ∈ enabled <;> simp [hm, objGet]

/-! ## Claims C1-C4, about src/db.ts -/

/-- C1: `GwaDb.lookup` is a total function returning a `LookupResponse`;
its error field is non-null exactly when the IP is syntactically invalid
(classified 0) or a database lookup was required and the adapter's get
returned no record; the response field is in every case the shaped response
(shaped from a null record, the request IP and the classified version), so
for an invalid IP an enabled `ip_version` output is 0. -/
theorem lookup_error_and_shape {R : Type} (get : String → Option R)
    (gs : Option R → String → Option String) (enabled : List String) (ip : String) :
    ((lookup get gs enabled ip).error ≠ none ↔
      isIP ip = 0 ∨ (isDbNeeded enabled = true ∧ get ip = none)) ∧
    ((lookup get gs enabled ip).geoIpApiResponse =
      geoIpApiResponse gs enabled
        (if isIP ip ≠ 0 ∧ isDbNeeded enabled = true then get ip else none)
        (some ip) (some (isIP ip))) ∧
    (isIP ip = 0 → "ip_version" ∈ enabled →
      objGet (lookup get gs enabled ip).geoIpApiResponse "ip_version" =
        some (.vNum 0)) := by
  by_cases h0 : isIP ip = 0
  · have hl : lookup get gs enabled ip =
        { error := some ("Invalid IP: " ++ ip)
          geoIpApiResponse :=
            geoIpApiResponse gs enabled none (some ip) (some (isIP ip)) } := by
      simp only [lookup]
      rw [if_pos h0]
    rw [hl]
    refine ⟨by simp [h0], by simp [h0], fun _ _ => ?_⟩
    rw [objGet_geoIpApiResponse]
    simp_all [producedValue, jsOrNat]
  · by_cases h1 : isDbNeeded enabled = true
    · rcases hget : get ip with _ | d
      · have hl : lookup get gs enabled ip =
            { error := some ("Failed to search database for IP: " ++ ip)
              geoIpApiResponse :=
                geoIpApiResponse gs enabled none (some ip) (some (isIP ip)) } := by
          simp only [lookup]
          rw [if_neg h0, if_neg (by simp [h1]), hget]
        rw [hl]
        exact ⟨by simp [h1, hget], by simp [h0, h1, hget],
          fun hiv _ => absurd hiv h0⟩
      · have hl : lookup get gs enabled ip =
            { error := none
              geoIpApiResponse :=
                geoIpApiResponse gs enabled (some d) (some ip) (some (isIP ip)) } := by
          simp only [lookup]
          rw [if_neg h0, if_neg (by simp [h1]), hget]
        rw [hl]
        exact ⟨by simp [h0, hget], by simp [h0, h1, hget],
          fun hiv _ => absurd hiv h0⟩
    · have hl : lookup get gs enabled ip =
          { error := none
            geoIpApiResponse :=
              geoIpApiResponse gs enabled none (some ip) (some (isIP ip)) } := by
        simp only [lookup]
        rw [if_neg h0, if_pos (by simp [Bool.not_eq_true] at h1 ⊢; exact h1)]
      rw [hl]
      exact ⟨by simp [h0, h1], by simp [h1], fun hiv _ => absurd hiv h0⟩

/-- C1 witness: at the invalid IP 999.1.1.1 with only ip_version enabled,
the error is set and the shaped response reports version 0. -/
theorem lookup_error_and_shape_witness :
    isIP "999.1.1.1" = 0 ∧
    "ip_version" ∈ ["ip_version"] ∧
    objGet (lookup (R := Unit) (fun _ => none) (fun _ _ => none) ["ip_version"]
        "999.1.1.1").geoIpApiResponse "ip_version" = some (.vNum 0) :=
  ⟨by decide, by decide,
    (lookup_error_and_shape (R := Unit) (fun _ => none) (fun _ _ => none)
        ["ip_version"] "999.1.1.1").2.2 (by decide) (by decide)⟩

/-- C2 counterexample: supplying the enabled outputs as
`[ip_version, ip]` at construction produces a shaped response whose keys are
`[ip_version, ip]`, which is not ordered by the canonical order
ip, ip_version, country, subdivision, data. -/
theorem geoIpApiResponse_order_counterexample :
    objKeys (geoIpApiResponse (R := Unit) (fun _ _ => none) ["ip_version", "ip"]
        none (some "8.8.8.8") (some 4)) = ["ip_version", "ip"] ∧
    ¬ (objKeys (geoIpApiResponse (R := Unit) (fun _ _ => none) ["ip_version", "ip"]
        none (some "8.8.8.8") (some 4))).Sublist canonicalOutputs := by
  exact ⟨by decide, by decide⟩

/-- C2 (amended): the keys of the shaped response appear in first-occurrence
order of the supplied enabledOutputs list (restricted to outputs that produce
a key); hence the JSON field order is deterministic given the constructed
configuration, and follows the canonical order exactly when the outputs were
supplied in canonical order - not for every declaration order. -/
theorem geoIpApiResponse_keys_follow_declaration {R : Type}
    (gs : Option R → String → Option String) (enabled : List String)
    (db : Option R) (ip : Option String) (ipv : Option Nat) :
    objKeys (geoIpApiResponse gs enabled db ip ipv) =
      dedupFirst (enabled.filter (fun o => (producedValue gs db ip ipv o).isSome)) ∧
    (enabled.Sublist canonicalOutputs →
      (objKeys (geoIpApiResponse gs enabled db ip ipv)).Sublist canonicalOutputs) := by
  have hkeys : objKeys (geoIpApiResponse gs enabled db ip ipv) =
      dedupFirst (enabled.filter fun o => (producedValue gs db ip ipv o).isSome) := by
    unfold geoIpApiResponse dedupFirst
    rw [objKeys_foldl_responseStep, ← foldl_if_eq_foldl_filter]
    rfl
  refine ⟨hkeys, fun hsub => ?_⟩
  rw [hkeys]
  have h1 : (dedupFirst
      (enabled.filter fun o => (producedValue gs db ip ipv o).isSome)).Sublist
      (enabled.filter fun o => (producedValue gs db ip ipv o).isSome) := by
    simpa using foldl_dedup_sublist
      (enabled.filter fun o => (producedValue gs db ip ipv o).isSome) []
  exact h1.trans ((List.filter_sublist _).trans hsub)

/-- C2 witness: with outputs supplied in canonical order, the response keys
follow the canonical order. -/
theorem geoIpApiResponse_keys_follow_declaration_witness :
    List.Sublist ["ip", "country"] canonicalOutputs ∧
    (objKeys (geoIpApiResponse (R := Unit) (fun _ _ => some "US")
        ["ip", "country"] (some ()) (some "8.8.8.8") (some 4))).Sublist
      canonicalOutputs :=
  ⟨by decide,
    (geoIpApiResponse_keys_follow_declaration _ _ _ _ _).2 (by decide)⟩

/-- C3: the shaped response is sparse: a key is present exactly when its
output is enabled and resolvable (country/subdivision only when
getStringValue returned non-null, data only when the record is non-null); a
present key carries the produced non-null value and an absent output yields
no key at all - in particular a record lacking a subdivision yields a
response with no subdivision key. -/
theorem geoIpApiResponse_sparse {R : Type} (gs : Option R → String → Option String)
    (enabled : List String) (db : Option R) (ip : Option String) (ipv : Option Nat)
    (k : String) :
    (k ∈ objKeys (geoIpApiResponse gs enabled db ip ipv) ↔
      k ∈ enabled ∧ (producedValue gs db ip ipv k).isSome = true) ∧
    objGet (geoIpApiResponse gs enabled db ip ipv) k =
      (if k ∈ enabled then producedValue gs db ip ipv k else none) ∧
    (k = "subdivision" → gs db "subdivision" = none →
      k ∉ objKeys (geoIpApiResponse gs enabled db ip ipv)) := by
  have hget := objGet_geoIpApiResponse gs enabled db ip ipv k
  have hmem : k ∈ objKeys (geoIpApiResponse gs enabled db ip ipv) ↔
      k ∈ enabled ∧ (producedValue gs db ip ipv k).isSome = true := by
    rw [← objGet_isSome_iff_mem, hget]
    by_cases hm : k ∈ enabled <;> simp [hm]
  refine ⟨hmem, hget, ?_⟩
  rintro rfl hnone
  rw [hmem]
  simp [producedValue, hnone]

/-- C3 witness: with country and subdivision enabled but the record lacking a
subdivision, the response omits the subdivision key entirely. -/
theorem geoIpApiResponse_sparse_witness :
    ("subdivision" : String) ∉ objKeys (geoIpApiResponse (R := Unit)
      (fun _ k => if k = "country" then some "US" else none)
      ["country", "subdivision"] (some ()) (some "8.8.8.8") (some 4)) :=
  (geoIpApiResponse_sparse _ _ _ _ _ "subdivision").2.2 rfl (by decide)

/-- C4: for a syntactically valid IP, when every enabled output is among
ip and ip_version (including no enabled outputs) the lookup result does not
depend on the adapter's get at all (the database is never consulted), the
error is null, and the response is shaped from a null record. -/
theorem lookup_skips_db {R : Type} (get1 get2 : String → Option R)
    (gs : Option R → String → Option String) (enabled : List String) (ip : String)
    (hip : isIP ip ≠ 0) (houts : ∀ o ∈ enabled, o = "ip" ∨ o = "ip_version") :
    lookup get1 gs enabled ip = lookup get2 gs enabled ip ∧
    (lookup get1 gs enabled ip).error = none ∧
    (lookup get1 gs enabled ip).geoIpApiResponse =
      geoIpApiResponse gs enabled none (some ip) (some (isIP ip)) := by
  have hfil : ∀ l : List String, (∀ o ∈ l, o = "ip" ∨ o = "ip_version") →
      l.filter (fun option => !(ipOutputs.contains option)) = [] := by
    intro l
    induction l with
    | nil => intro _; rfl
    | cons o rest ih =>
        intro hl
        have hrest := ih fun x hx => hl x (List.mem_cons_of_mem _ hx)
        rcases hl o (List.mem_cons_self o rest) with h | h <;> subst h <;>
          rw [List.filter_cons, if_neg (by decide)] <;> exact hrest
  have hdb : isDbNeeded enabled = false := by
    unfold isDbNeeded
    rw [hfil enabled houts]
    rfl
  have hl : ∀ get : String → Option R, lookup get gs enabled ip =
      { error := none
        geoIpApiResponse :=
          geoIpApiResponse gs enabled none (some ip) (some (isIP ip)) } := by
    intro get
    simp only [lookup]
    rw [if_neg hip, if_pos (by rw [hdb]; rfl)]
  exact ⟨(hl get1).trans (hl get2).symm, by rw [hl], by rw [hl]⟩

/-- C4 witness: with only ip_version enabled, looking up 8.8.8.8 gives the
same result for two different adapters and the response is ip_version 4. -/
theorem lookup_skips_db_witness :
    isIP "8.8.8.8" ≠ 0 ∧
    lookup (R := Unit) (fun _ => none) (fun _ _ => none) ["ip_version"] "8.8.8.8" =
      lookup (fun _ => some ()) (fun _ _ => none) ["ip_version"] "8.8.8.8" ∧
    (lookup (R := Unit) (fun _ => none) (fun _ _ => none) ["ip_version"]
        "8.8.8.8").geoIpApiResponse = [("ip_version", .vNum 4)] ∧
    (lookup (R := Unit) (fun _ => none) (fun _ _ => none) ["ip_version"]
        "8.8.8.8").error = none :=
  ⟨by decide,
    (lookup_skips_db (R := Unit) (fun _ => none) (fun _ => some ())
        (fun _ _ => none) ["ip_version"] "8.8.8.8" (by decide) (by decide)).1,
    by decide, by decide⟩

/-! ## Model of JS values for the configuration overlay

The untrusted source passed to `overlayOptions` is an arbitrary JS value.
Numbers are modelled as rationals plus NaN and the two infinities.  Objects
are association lists; duplicate keys in the list behave like the first
occurrence (real JS objects have unique keys). -/

/-- JS number: finite (rational) value, NaN, or an infinity. -/
inductive JSNum where
  | num (q : Rat)
  | nan
  | inf (pos : Bool)
  deriving DecidableEq

/-- Untyped JS value. -/
inductive JSValue where
  | undefined
  | null
  | bool (b : Bool)
  | number (n : JSNum)
  | str (s : String)
  | arr (elems : List JSValue)
  | obj (fields : List (String × JSValue))
  | regexp (source : String)

/-- JS truthiness. -/
def jsTruthy : JSValue → Bool
  | .undefined => false
  | .null => false
  | .bool b => b
  | .number (.num q) => !(q = 0 : Bool)
  | .number .nan => false
  | .number (.inf _) => true
  | .str s => !(s = "" : Bool)
  | .arr _ => true
  | .obj _ => true
  | .regexp _ => true

/-- JS `v instanceof Object`. -/
def jsInstanceOfObject : JSValue → Bool
  | .arr _ => true
  | .obj _ => true
  | .regexp _ => true
  | _ => false

/-- JS `Array.isArray(v)`. -/
def jsIsArray : JSValue → Bool
  | .arr _ => true
  | _ => false

/-- Decimal digits of a natural number (most significant first). -/
def natToStrGo : Nat → Nat → List Char → List Char
  | 0, _, acc => acc
  | fuel + 1, n, acc =>
      let d := Char.ofNat (48 + n % 10)
      if n < 10 then d :: acc else natToStrGo fuel (n / 10) (d :: acc)

/-- Decimal string of a natural number. -/
def natToStr (n : Nat) : String := (natToStrGo (n + 1) n []).asString

/-- Canonical array-index reading of a property key, if any. -/
def canonicalIndex (k : String) : Option Nat :=
  let cs := k.toList
  if cs ≠ [] ∧ cs.all Char.isDigit ∧ (cs.length = 1 ∨ cs.headD '0' ≠ '0') then
    some (charsToNat cs)
  else none

/-- JS property read `v[k]` (undefined when absent or not an object). -/
def jsGet : JSValue → String → JSValue
  | .obj fields, k => (objGet fields k).getD .undefined
  | .arr xs, k =>
      (match canonicalIndex k with
        | some i => (xs.get? i).getD .undefined
        | none => .undefined)
  | _, _ => .undefined

/-- JS `Object.keys(v)` (own enumerable keys, insertion order). -/
def jsKeys : JSValue → List String
  | .obj fields => dedupFirst (fields.map Prod.fst)
  | .arr xs => (List.range xs.length).map natToStr
  | _ => []

/-! ### ToNumber coercion (external JS semantics)

Modelled from the JS abstract ToNumber operation, restricted to the value
constructors above.  Numeric strings are parsed as optionally signed decimal
literals with an optional fraction, or Infinity; exponents and hex literals
are not modelled (no claim depends on them). -/

/-- Parse an unsigned decimal literal `digits [ . digits ]`. -/
def parseDecimal (cs : List Char) : Option Rat :=
  let intPart := cs.takeWhile Char.isDigit
  let rest := cs.drop intPart.length
  match rest with
  | [] => if intPart.isEmpty then none else some (charsToNat intPart)
  | '.' :: frac =>
      if frac.all Char.isDigit && !(intPart.isEmpty && frac.isEmpty) then
        some ((charsToNat intPart : Rat) + (charsToNat frac : Rat) / ((10 : Rat) ^ frac.length))
      else none
  | _ => none

/-- Parse an unsigned numeric string body (decimal or Infinity). -/
def parseUnsigned (cs : List Char) : Option Rat × Bool :=
  if cs = "Infinity".toList then (none, true) else (parseDecimal cs, false)

/-- JS StringToNumber. -/
def strToNumber (s : String) : JSNum :=
  match (jsTrim s).toList with
  | [] => .num 0
  | '+' :: rest =>
      (match parseUnsigned rest with
        | (_, true) => .inf true
        | (some q, _) => .num q
        | (none, _) => .nan)
  | '-' :: rest =>
      (match parseUnsigned rest with
        | (_, true) => .inf false
        | (some q, _) => .num (-q)
        | (none, _) => .nan)
  | cs =>
      (match parseUnsigned cs with
        | (_, true) => .inf true
        | (some q, _) => .num q
        | (none, _) => .nan)

/-- JS ToNumber.  A one-element array coerces through its element
(approximating ToPrimitive), plain objects and regexps coerce to NaN. -/
def toNumber : JSValue → JSNum
  | .undefined => .nan
  | .null => .num 0
  | .bool b => .num (if b then 1 else 0)
  | .number n => n
  | .str s => strToNumber s
  | .arr [] => .num 0
  | .arr [x] => toNumber x
  | .arr _ => .nan
  | .obj _ => .nan
  | .regexp _ => .nan

/-- JS `a <= b` on numbers (false when either side is NaN). -/
def jsNumLE : JSNum → JSNum → Bool
  | .nan, _ => false
  | _, .nan => false
  | .num a, .num b => decide (a ≤ b)
  | .inf true, .inf true => true
  | .inf true, _ => false
  | _, .inf true => true
  | .inf false, .inf false => true
  | .inf false, _ => true
  | _, .inf false => false

/-- JS `a < b` on numbers (false when either side is NaN). -/
def jsNumLT : JSNum → JSNum → Bool
  | .nan, _ => false
  | _, .nan => false
  | .num a, .num b => decide (a < b)
  | .inf true, _ => false
  | _, .inf true => true
  | _, .inf false => false
  | .inf false, _ => true

/-- JS `a >= b` on numbers. -/
def jsNumGE (a b : JSNum) : Bool := jsNumLE b a

/-- JS `a > b` on numbers. -/
def jsNumGT (a b : JSNum) : Bool := jsNumLT b a

/-- JS `Math.floor`. -/
def jsNumFloor : JSNum → JSNum
  | .num q => .num (⌊q⌋ : Int)
  | .nan => .nan
  | .inf p => .inf p

/-! ## Model of the configuration record (`AppOptions`) -/

/-- Stored regex setting: a pattern string or a RegExp object (by source). -/
inductive RegExSetting where
  | str (s : String)
  | regex (source : String)
  deriving DecidableEq

/-- Truthiness of a string-or-RegExp value. -/
def regExSettingTruthy : RegExSetting → Bool
  | .str s => !(s = "" : Bool)
  | .regex _ => true

/-- The five output toggles, in TS declaration order. -/
structure EnabledOutputs where
  country : Bool
  subdivision : Bool
  ip : Bool
  ip_version : Bool
  data : Bool
  deriving DecidableEq

/-- CORS options as stored in the configuration. -/
structure CorsOptions where
  origins : Option (List String)
  originRegEx : Option RegExSetting
  deriving DecidableEq

/-- MaxMind backend options. -/
structure MaxMindOptions where
  dbPath : String
  deriving DecidableEq

/-- IP2Location backend options. -/
structure IP2LocationOptions where
  dbPath : String
  subdivisionCsvPath : String
  deriving DecidableEq

/-- Embedding of `AppOptions` (src/options.ts).  Numeric fields hold JS
numbers, the header map holds string-or-null values in insertion order. -/
structure AppOptions where
  logLevel : JSNum
  port : JSNum
  enabledOutputs : EnabledOutputs
  prettyOutput : Bool
  getHeaders : List (String × Option String)
  getPaths : List String
  cors : CorsOptions
  maxmind : MaxMindOptions
  ip2location : IP2LocationOptions
  deriving DecidableEq

/-- Embedding of `getDefaultOptions` (src/options.ts lines 156-184),
parametrised by `process.cwd()`.  `LogLevel.INFO = 3`. -/
def getDefaultOptions (cwd : String) : AppOptions :=
  { logLevel := .num 3
    port := .num 3000
    enabledOutputs :=
      { country := true, subdivision := true, ip := false
        ip_version := false, data := false }
    prettyOutput := false
    getHeaders := []
    getPaths := ["/", "/*"]
    cors := { origins := none, originRegEx := none }
    maxmind := { dbPath := cwd ++ "/GeoLite2-Country.mmdb" }
    ip2location := { dbPath := "", subdivisionCsvPath := "" } }

/-- Database provider tag (src/db.ts lines 12-16). -/
inductive DbProvider where
  | UNKNOWN
  | MAXMIND
  | IP2LOCATION
  deriving DecidableEq

/-- Embedding of `GwaDbOptions` (src/db.ts lines 21-36). -/
structure GwaDbOptions where
  dbProvider : DbProvider
  maxMindOptions : Option MaxMindOptions
  ip2LocationOptions : Option IP2LocationOptions
  deriving DecidableEq

/-- Embedding of `getDbOptions` (src/options.ts lines 330-344). -/
def getDbOptions (appOptions : AppOptions) : GwaDbOptions :=
  let gwaDbOptions : GwaDbOptions :=
    { dbProvider := .UNKNOWN, maxMindOptions := none, ip2LocationOptions := none }
  if !(appOptions.maxmind.dbPath = "" : Bool) then
    { gwaDbOptions with
      dbProvider := .MAXMIND
      maxMindOptions := some appOptions.maxmind }
  else if !(appOptions.ip2location.dbPath = "" : Bool) then
    { gwaDbOptions with
      dbProvider := .IP2LOCATION
      ip2LocationOptions := some appOptions.ip2location }
  else gwaDbOptions

/-! ## Model of `expandTildePath` (src/utils.ts lines 9-45)

Parametrised by whether the platform separator is `/` and by `homedir()`. -/

/-- Word character of the JS `\w` class. -/
def isWordChar (c : Char) : Bool := c.isAlpha || c.isDigit || c = '_'

/-- Embedding of `isPosixUsername`: the regex `^[\w.][\w.\-]*$`. -/
def isPosixUsername (user : String) : Bool :=
  match user.toList with
  | [] => false
  | c :: rest =>
      (isWordChar c || c = '.') &&
      rest.all (fun d => isWordChar d || d = '.' || d = '-')

/-- Embedding of `expandTildePath`. -/
def expandTildePath (posixSep : Bool) (homedir : String) (path : String) : String :=
  match path.toList with
  | [] => path
  | c :: rest =>
      if c ≠ '~' ∨ posixSep = false then path
      else if rest.isEmpty then homedir
      else if rest.headD ' ' = '/' then homedir ++ rest.asString
      else
        let userChars := rest.takeWhile (fun d => d ≠ '/')
        let user := userChars.asString
        if isPosixUsername user then
          "/home/" ++ user ++ (rest.drop userChars.length).asString
        else path

/-! ## The two configuration overlays

`overlayOptionsTS` embeds the TypeScript `overlayOptions` (src/utils.ts lines
190-324); `overlayOptionsJS` embeds the JavaScript `overlayOptions`
(src/options.js lines 68-185).  Each source block becomes one transformer
applied in source order.  Blocks whose code is character-identical in the two
files (prettyOutput, getHeaders, getPaths, cors origins) share a definition. -/

/-- TS log level block (src/utils.ts lines 198-201). -/
def overlayLogLevelTS (src : JSValue) (target : AppOptions) : AppOptions :=
  match jsGet src "logLevel" with
  | .number n =>
      if jsNumGE n (.num 0) && jsNumLE n (.num 4) then
        { target with logLevel := jsNumFloor n }
      else target
  | _ => target

/-- TS port block (src/utils.ts lines 204-207). -/
def overlayPortTS (src : JSValue) (target : AppOptions) : AppOptions :=
  match jsGet src "port" with
  | .number n =>
      if jsNumGE n (.num 0) && jsNumLE n (.num 65535) then
        { target with port := jsNumFloor n }
      else target
  | _ => target

/-- JS log level block (src/options.js lines 75-77): no typeof check, the
comparisons and Math.floor coerce. -/
def overlayLogLevelJS (src : JSValue) (target : AppOptions) : AppOptions :=
  if jsNumGE (toNumber (jsGet src "logLevel")) (.num 0) &&
      jsNumLE (toNumber (jsGet src "logLevel")) (.num 4) then
    { target with logLevel := jsNumFloor (toNumber (jsGet src "logLevel")) }
  else target

/-- JS port block (src/options.js lines 80-82): `src.port > 0` only. -/
def overlayPortJS (src : JSValue) (target : AppOptions) : AppOptions :=
  if jsNumGT (toNumber (jsGet src "port")) (.num 0) then
    { target with port := jsNumFloor (toNumber (jsGet src "port")) }
  else target

/-- The keys of the target's enabledOutputs, in declaration order. -/
def knownOutputs : List String := ["country", "subdivision", "ip", "ip_version", "data"]

/-- Assignment `target.enabledOutputs[output] = b` for a known output. -/
def setOutput (eo : EnabledOutputs) (k : String) (b : Bool) : EnabledOutputs :=
  match k with
  | "country" => { eo with country := b }
  | "subdivision" => { eo with subdivision := b }
  | "ip" => { eo with ip := b }
  | "ip_version" => { eo with ip_version := b }
  | "data" => { eo with data := b }
  | _ => eo

/-- TS enabled outputs block (src/utils.ts lines 210-222): iterate the target's
typed keys, copying boolean source values. -/
def overlayOutputsTS (src : JSValue) (target : AppOptions) : AppOptions :=
  if jsInstanceOfObject (jsGet src "enabledOutputs") then
    { target with
      enabledOutputs :=
        knownOutputs.foldl (fun eo output =>
          match jsGet (jsGet src "enabledOutputs") output with
          | .bool b => setOutput eo output b
          | _ => eo) target.enabledOutputs }
  else target

/-- JS enabled outputs block (src/options.js lines 85-94): iterate the source's
keys filtered to known outputs, copying boolean source values. -/
def overlayOutputsJS (src : JSValue) (target : AppOptions) : AppOptions :=
  if jsInstanceOfObject (jsGet src "enabledOutputs") then
    { target with
      enabledOutputs :=
        ((jsKeys (jsGet src "enabledOutputs")).filter
            (fun output => knownOutputs.contains output)).foldl
          (fun eo output =>
            match jsGet (jsGet src "enabledOutputs") output with
            | .bool b => setOutput eo output b
            | _ => eo) target.enabledOutputs }
  else target

/-- Pretty output block (identical in both sources). -/
def overlayPrettyOutput (src : JSValue) (target : AppOptions) : AppOptions :=
  match jsGet src "prettyOutput" with
  | .bool b => { target with prettyOutput := b }
  | _ => target

/-- One header entry application: delete a case-insensitive duplicate of the
key already staged, then insert with the new casing (last write wins). -/
def applyHeader (target : List (String × Option String)) (key : String)
    (val : Option String) : List (String × Option String) :=
  let t2 :=
    match (objKeys target).find? (fun h => asciiLower h = asciiLower key) with
    | some duplicateKey => target.filter (fun p => !(p.1 = duplicateKey : Bool))
    | none => target
  objSet t2 key val

/-- One iteration of the getHeaders forEach: accept string or null values. -/
def headerStep (getHeaders : JSValue) (target : List (String × Option String))
    (key : String) : List (String × Option String) :=
  match jsGet getHeaders key with
  | .str s => applyHeader target key (some s)
  | .null => applyHeader target key none
  | _ => target

/-- The getHeaders rebuild (identical in both sources): start from an empty
map and apply every source key whose value is a string or null. -/
def overlayHeadersMap (getHeaders : JSValue) : List (String × Option String) :=
  (jsKeys getHeaders).foldl (headerStep getHeaders) []

/-- getHeaders block (identical in both sources). -/
def overlayHeaders (src : JSValue) (target : AppOptions) : AppOptions :=
  if jsInstanceOfObject (jsGet src "getHeaders") then
    { target with getHeaders := overlayHeadersMap (jsGet src "getHeaders") }
  else target

/-- getPaths block (identical in both sources). -/
def overlayPaths (src : JSValue) (target : AppOptions) : AppOptions :=
  if jsIsArray (jsGet src "getPaths") then
    let paths :=
      ((match jsGet src "getPaths" with
        | JSValue.arr ps => ps
        | _ => ([] : List JSValue)).map
          (fun p => match p with | JSValue.str s => jsTrim s | _ => "")).filter
        (fun s => !(s = "" : Bool))
    { target with getPaths := if paths.isEmpty then ["/"] else paths }
  else target

/-- The cors.origins replacement (identical in both sources). -/
def corsOriginsOverlay (origins : List JSValue) : List String :=
  (origins.map (fun o => match o with | .str s => jsTrim s | _ => "")).filter
    (fun s => !(s = "" : Bool))

/-- TS cors block (src/utils.ts lines 271-289). -/
def overlayCorsTS (src : JSValue) (target : AppOptions) : AppOptions :=
  if jsInstanceOfObject (jsGet src "cors") then
    let cors := jsGet src "cors"
    let target :=
      match jsGet cors "origins" with
      | .arr origins =>
          { target with
            cors := { target.cors with origins := some (corsOriginsOverlay origins) } }
      | _ => target
    let originRegEx : Option RegExSetting :=
      match jsGet cors "originRegEx" with
      | .str s => some (.str s)
      | .regexp r => some (.regex r)
      | _ => none
    match originRegEx with
    | some v =>
        if regExSettingTruthy v then
          { target with cors := { target.cors with originRegEx := some v } }
        else target
    | none => target
  else target

/-- JS cors block (src/options.js lines 138-154): truthiness tested first. -/
def overlayCorsJS (src : JSValue) (target : AppOptions) : AppOptions :=
  if jsInstanceOfObject (jsGet src "cors") then
    let cors := jsGet src "cors"
    let target :=
      match jsGet cors "origins" with
      | .arr origins =>
          { target with
            cors := { target.cors with origins := some (corsOriginsOverlay origins) } }
      | _ => target
    if jsTruthy (jsGet cors "originRegEx") then
      match jsGet cors "originRegEx" with
      | .str s =>
          { target with cors := { target.cors with originRegEx := some (.str s) } }
      | .regexp r =>
          { target with cors := { target.cors with originRegEx := some (.regex r) } }
      | _ => target
    else target
  else target

/-- TS maxmind and ip2location blocks (src/utils.ts lines 292-321): paths are
trimmed before the truthiness test. -/
def overlayBackendTS (posixSep : Bool) (homedir : String) (src : JSValue)
    (target : AppOptions) : AppOptions :=
  let mm : AppOptions × Bool :=
    if jsInstanceOfObject (jsGet src "maxmind") then
      match jsGet (jsGet src "maxmind") "dbPath" with
      | .str s =>
          let dbPath := jsTrim s
          if !(dbPath = "" : Bool) then
            ({ target with
                maxmind := { dbPath := expandTildePath posixSep homedir dbPath } },
              true)
          else (target, false)
      | _ => (target, false)
    else (target, false)
  let target := mm.1
  let maxMindDefined := mm.2
  if !maxMindDefined then
    if jsInstanceOfObject (jsGet src "ip2location") then
      match jsGet (jsGet src "ip2location") "dbPath" with
      | .str s =>
          let dbPath := jsTrim s
          if !(dbPath = "" : Bool) then
            let target :=
              { target with
                ip2location :=
                  { target.ip2location with
                    dbPath := expandTildePath posixSep homedir dbPath }
                maxmind := { target.maxmind with dbPath := "" } }
            match jsGet (jsGet src "ip2location") "subdivisionCsvPath" with
            | .str s2 =>
                let subdivisionCsvPath := jsTrim s2
                if !(subdivisionCsvPath = "" : Bool) then
                  { target with
                    ip2location :=
                      { target.ip2location with
                        subdivisionCsvPath :=
                          expandTildePath posixSep homedir subdivisionCsvPath } }
                else target
            | _ => target
          else target
      | _ => target
    else target
  else target

/-- JS maxmind and ip2location blocks (src/options.js lines 157-182): truthiness
is tested on the raw value, no trimming. -/
def overlayBackendJS (posixSep : Bool) (homedir : String) (src : JSValue)
    (target : AppOptions) : AppOptions :=
  let mm : AppOptions × Bool :=
    if jsInstanceOfObject (jsGet src "maxmind") then
      match jsGet (jsGet src "maxmind") "dbPath" with
      | .str s =>
          if !(s = "" : Bool) then
            ({ target with
                maxmind := { dbPath := expandTildePath posixSep homedir s } },
              true)
          else (target, false)
      | _ => (target, false)
    else (target, false)
  let target := mm.1
  let maxMindDefined := mm.2
  if !maxMindDefined then
    if jsInstanceOfObject (jsGet src "ip2location") then
      match jsGet (jsGet src "ip2location") "dbPath" with
      | .str s =>
          if !(s = "" : Bool) then
            let target :=
              { target with
                ip2location :=
                  { target.ip2location with
                    dbPath := expandTildePath posixSep homedir s }
                maxmind := { target.maxmind with dbPath := "" } }
            match jsGet (jsGet src "ip2location") "subdivisionCsvPath" with
            | .str s2 =>
                if !(s2 = "" : Bool) then
                  { target with
                    ip2location :=
                      { target.ip2location with
                        subdivisionCsvPath := expandTildePath posixSep homedir s2 } }
                else target
            | _ => target
          else target
      | _ => target
    else target
  else target

/-- Embedding of the TypeScript `overlayOptions` (src/utils.ts lines 190-324). -/
def overlayOptionsTS (cwd homedir : String) (posixSep : Bool)
    (unsafeSrc : JSValue) : AppOptions :=
  let target := getDefaultOptions cwd
  if !(jsInstanceOfObject unsafeSrc) then target
  else
    let src := unsafeSrc
    let target := overlayLogLevelTS src target
    let target := overlayPortTS src target
    let target := overlayOutputsTS src target
    let target := overlayPrettyOutput src target
    let target := overlayHeaders src target
    let target := overlayPaths src target
    let target := overlayCorsTS src target
    overlayBackendTS posixSep homedir src target

/-- Embedding of the JavaScript `overlayOptions` (src/options.js lines 68-185). -/
def overlayOptionsJS (cwd homedir : String) (posixSep : Bool)
    (src : JSValue) : AppOptions :=
  let target := getDefaultOptions cwd
  if !(jsInstanceOfObject src) then target
  else
    let target := overlayLogLevelJS src target
    let target := overlayPortJS src target
    let target := overlayOutputsJS src target
    let target := overlayPrettyOutput src target
    let target := overlayHeaders src target
    let target := overlayPaths src target
    let target := overlayCorsJS src target
    overlayBackendJS posixSep homedir src target

example :
    (overlayOptionsTS "/w" "/home/u" true
      (.obj [("port", .number (.num 0))])).port = .num 0 := by decide
example :
    (overlayOptionsJS "/w" "/home/u" true
      (.obj [("port", .number (.num 0))])).port = .num 3000 := by decide
example :
    (overlayOptionsTS "/w" "/home/u" true
      (.obj [("maxmind", .obj [("dbPath", .str " ~/geo.mmdb ")])])).maxmind.dbPath =
      "/home/u/geo.mmdb" := by decide
example :
    (overlayOptionsTS "/w" "/home/u" true .null).maxmind.dbPath =
      "/w/GeoLite2-Country.mmdb" := by decide

/-! ## Frame lemmas: each overlay block writes only its own field -/

theorem overlayLogLevelTS_shape (src : JSValue) (t : AppOptions) :
    overlayLogLevelTS src t =
      { t with logLevel := (overlayLogLevelTS src t).logLevel } := by
  unfold overlayLogLevelTS
  split <;> first | rfl | (split <;> rfl)

theorem overlayPortTS_shape (src : JSValue) (t : AppOptions) :
    overlayPortTS src t = { t with port := (overlayPortTS src t).port } := by
  unfold overlayPortTS
  split <;> first | rfl | (split <;> rfl)

theorem overlayLogLevelJS_shape (src : JSValue) (t : AppOptions) :
    overlayLogLevelJS src t =
      { t with logLevel := (overlayLogLevelJS src t).logLevel } := by
  unfold overlayLogLevelJS
  split <;> rfl

theorem overlayPortJS_shape (src : JSValue) (t : AppOptions) :
    overlayPortJS src t = { t with port := (overlayPortJS src t).port } := by
  unfold overlayPortJS
  split <;> rfl

theorem overlayOutputsTS_shape (src : JSValue) (t : AppOptions) :
    overlayOutputsTS src t =
      { t with enabledOutputs := (overlayOutputsTS src t).enabledOutputs } := by
  unfold overlayOutputsTS
  split <;> rfl

theorem overlayOutputsJS_shape (src : JSValue) (t : AppOptions) :
    overlayOutputsJS src t =
      { t with enabledOutputs := (overlayOutputsJS src t).enabledOutputs } := by
  unfold overlayOutputsJS
  split <;> rfl

theorem overlayPrettyOutput_shape (src : JSValue) (t : AppOptions) :
    overlayPrettyOutput src t =
      { t with prettyOutput := (overlayPrettyOutput src t).prettyOutput } := by
  unfold overlayPrettyOutput
  split <;> rfl

theorem overlayHeaders_shape (src : JSValue) (t : AppOptions) :
    overlayHeaders src t =
      { t with getHeaders := (overlayHeaders src t).getHeaders } := by
  unfold overlayHeaders
  split <;> rfl

theorem overlayPaths_shape (src : JSValue) (t : AppOptions) :
    overlayPaths src t =
      { t with getPaths := (overlayPaths src t).getPaths } := by
  unfold overlayPaths
  split <;> rfl

theorem overlayCorsTS_shape (src : JSValue) (t : AppOptions) :
    overlayCorsTS src t = { t with cors := (overlayCorsTS src t).cors } := by
  unfold overlayCorsTS
  dsimp only
  repeat' split
  all_goals rfl

theorem overlayCorsJS_shape (src : JSValue) (t : AppOptions) :
    overlayCorsJS src t = { t with cors := (overlayCorsJS src t).cors } := by
  unfold overlayCorsJS
  dsimp only
  repeat' split
  all_goals rfl

theorem overlayBackendTS_shape (p : Bool) (h : String) (src : JSValue)
    (t : AppOptions) :
    overlayBackendTS p h src t =
      { t with
        maxmind := (overlayBackendTS p h src t).maxmind
        ip2location := (overlayBackendTS p h src t).ip2location } := by
  unfold overlayBackendTS
  dsimp only
  repeat' split
  all_goals rfl

theorem overlayBackendJS_shape (p : Bool) (h : String) (src : JSValue)
    (t : AppOptions) :
    overlayBackendJS p h src t =
      { t with
        maxmind := (overlayBackendJS p h src t).maxmind
        ip2location := (overlayBackendJS p h src t).ip2location } := by
  unfold overlayBackendJS
  dsimp only
  repeat' split
  all_goals rfl

/-! ## Value characterizations: what each block computes from its own
source field and the previous value of its target field -/

/-- Result of the TS log level block on the source field value. -/
def logLevelValTS (v : JSValue) (dflt : JSNum) : JSNum :=
  match v with
  | .number n =>
      if jsNumGE n (.num 0) && jsNumLE n (.num 4) then jsNumFloor n else dflt
  | _ => dflt

/-- Result of the TS port block on the source field value. -/
def portValTS (v : JSValue) (dflt : JSNum) : JSNum :=
  match v with
  | .number n =>
      if jsNumGE n (.num 0) && jsNumLE n (.num 65535) then jsNumFloor n else dflt
  | _ => dflt

/-- Result of the JS log level block on the source field value. -/
def logLevelValJS (v : JSValue) (dflt : JSNum) : JSNum :=
  if jsNumGE (toNumber v) (.num 0) && jsNumLE (toNumber v) (.num 4) then
    jsNumFloor (toNumber v)
  else dflt

/-- Result of the JS port block on the source field value. -/
def portValJS (v : JSValue) (dflt : JSNum) : JSNum :=
  if jsNumGT (toNumber v) (.num 0) then jsNumFloor (toNumber v) else dflt

/-- One step of either enabled-outputs forEach. -/
def outputsStep (v : JSValue) (eo : EnabledOutputs) (output : String) :
    EnabledOutputs :=
  match jsGet v output with
  | .bool b => setOutput eo output b
  | _ => eo

/-- Result of the TS enabled-outputs block on the source field value. -/
def outputsValTS (v : JSValue) (eo : EnabledOutputs) : EnabledOutputs :=
  if jsInstanceOfObject v then knownOutputs.foldl (outputsStep v) eo else eo

/-- Result of the JS enabled-outputs block on the source field value. -/
def outputsValJS (v : JSValue) (eo : EnabledOutputs) : EnabledOutputs :=
  if jsInstanceOfObject v then
    ((jsKeys v).filter (fun output => knownOutputs.contains output)).foldl
      (outputsStep v) eo
  else eo

/-- Result of the shared prettyOutput block. -/
def prettyVal (v : JSValue) (dflt : Bool) : Bool :=
  match v with
  | .bool b => b
  | _ => dflt

/-- Result of the shared getHeaders block. -/
def headersVal (v : JSValue) (dflt : List (String × Option String)) :
    List (String × Option String) :=
  if jsInstanceOfObject v then overlayHeadersMap v else dflt

/-- Result of the shared getPaths block. -/
def pathsVal (v : JSValue) (dflt : List String) : List String :=
  if jsIsArray v then
    let paths :=
      ((match v with
        | JSValue.arr ps => ps
        | _ => ([] : List JSValue)).map
          (fun p => match p with | JSValue.str s => jsTrim s | _ => "")).filter
        (fun s => !(s = "" : Bool))
    if paths.isEmpty then ["/"] else paths
  else dflt

/-- Result of the TS cors block. -/
def corsValTS (v : JSValue) (c : CorsOptions) : CorsOptions :=
  if jsInstanceOfObject v then
    let c :=
      match jsGet v "origins" with
      | .arr origins => { c with origins := some (corsOriginsOverlay origins) }
      | _ => c
    let originRegEx : Option RegExSetting :=
      match jsGet v "originRegEx" with
      | .str s => some (.str s)
      | .regexp r => some (.regex r)
      | _ => none
    match originRegEx with
    | some w => if regExSettingTruthy w then { c with originRegEx := some w } else c
    | none => c
  else c

/-- Result of the JS cors block. -/
def corsValJS (v : JSValue) (c : CorsOptions) : CorsOptions :=
  if jsInstanceOfObject v then
    let c :=
      match jsGet v "origins" with
      | .arr origins => { c with origins := some (corsOriginsOverlay origins) }
      | _ => c
    if jsTruthy (jsGet v "originRegEx") then
      match jsGet v "originRegEx" with
      | .str s => { c with originRegEx := some (.str s) }
      | .regexp r => { c with originRegEx := some (.regex r) }
      | _ => c
    else c
  else c

/-- Result of the TS backend blocks on the maxmind and ip2location source
field values and the previous backend options. -/
def backendValTS (p : Bool) (h : String) (mmv i2lv : JSValue)
    (mm : MaxMindOptions) (i2l : IP2LocationOptions) :
    MaxMindOptions × IP2LocationOptions :=
  let first : MaxMindOptions × Bool :=
    if jsInstanceOfObject mmv then
      match jsGet mmv "dbPath" with
      | .str s =>
          let dbPath := jsTrim s
          if !(dbPath = "" : Bool) then
            ({ dbPath := expandTildePath p h dbPath }, true)
          else (mm, false)
      | _ => (mm, false)
    else (mm, false)
  if !first.2 then
    if jsInstanceOfObject i2lv then
      match jsGet i2lv "dbPath" with
      | .str s =>
          let dbPath := jsTrim s
          if !(dbPath = "" : Bool) then
            let i2l2 : IP2LocationOptions :=
              { i2l with dbPath := expandTildePath p h dbPath }
            let mm2 : MaxMindOptions := { first.1 with dbPath := "" }
            match jsGet i2lv "subdivisionCsvPath" with
            | .str s2 =>
                let subdivisionCsvPath := jsTrim s2
                if !(subdivisionCsvPath = "" : Bool) then
                  (mm2, { i2l2 with
                    subdivisionCsvPath := expandTildePath p h subdivisionCsvPath })
                else (mm2, i2l2)
            | _ => (mm2, i2l2)
          else (first.1, i2l)
      | _ => (first.1, i2l)
    else (first.1, i2l)
  else (first.1, i2l)

/-- Result of the JS backend blocks (no trimming). -/
def backendValJS (p : Bool) (h : String) (mmv i2lv : JSValue)
    (mm : MaxMindOptions) (i2l : IP2LocationOptions) :
    MaxMindOptions × IP2LocationOptions :=
  let first : MaxMindOptions × Bool :=
    if jsInstanceOfObject mmv then
      match jsGet mmv "dbPath" with
      | .str s =>
          if !(s = "" : Bool) then
            ({ dbPath := expandTildePath p h s }, true)
          else (mm, false)
      | _ => (mm, false)
    else (mm, false)
  if !first.2 then
    if jsInstanceOfObject i2lv then
      match jsGet i2lv "dbPath" with
      | .str s =>
          if !(s = "" : Bool) then
            let i2l2 : IP2LocationOptions := { i2l with dbPath := expandTildePath p h s }
            let mm2 : MaxMindOptions := { first.1 with dbPath := "" }
            match jsGet i2lv "subdivisionCsvPath" with
            | .str s2 =>
                if !(s2 = "" : Bool) then
                  (mm2, { i2l2 with subdivisionCsvPath := expandTildePath p h s2 })
                else (mm2, i2l2)
            | _ => (mm2, i2l2)
          else (first.1, i2l)
      | _ => (first.1, i2l)
    else (first.1, i2l)
  else (first.1, i2l)

theorem overlayLogLevelTS_eq (src : JSValue) (t : AppOptions) :
    overlayLogLevelTS src t =
      { t with logLevel := logLevelValTS (jsGet src "logLevel") t.logLevel } := by
  unfold overlayLogLevelTS logLevelValTS
  split <;> first | rfl | (split <;> rfl)

theorem overlayPortTS_eq (src : JSValue) (t : AppOptions) :
    overlayPortTS src t =
      { t with port := portValTS (jsGet src "port") t.port } := by
  unfold overlayPortTS portValTS
  split <;> first | rfl | (split <;> rfl)

theorem overlayLogLevelJS_eq (src : JSValue) (t : AppOptions) :
    overlayLogLevelJS src t =
      { t with logLevel := logLevelValJS (jsGet src "logLevel") t.logLevel } := by
  unfold overlayLogLevelJS logLevelValJS
  split <;> rfl

theorem overlayPortJS_eq (src : JSValue) (t : AppOptions) :
    overlayPortJS src t =
      { t with port := portValJS (jsGet src "port") t.port } := by
  unfold overlayPortJS portValJS
  split <;> rfl

theorem overlayOutputsTS_eq (src : JSValue) (t : AppOptions) :
    overlayOutputsTS src t =
      { t with
        enabledOutputs :=
          outputsValTS (jsGet src "enabledOutputs") t.enabledOutputs } := by
  unfold overlayOutputsTS outputsValTS outputsStep
  split <;> rfl

theorem overlayOutputsJS_eq (src : JSValue) (t : AppOptions) :
    overlayOutputsJS src t =
      { t with
        enabledOutputs :=
          outputsValJS (jsGet src "enabledOutputs") t.enabledOutputs } := by
  unfold overlayOutputsJS outputsValJS outputsStep
  split <;> rfl

theorem overlayPrettyOutput_eq (src : JSValue) (t : AppOptions) :
    overlayPrettyOutput src t =
      { t with prettyOutput := prettyVal (jsGet src "prettyOutput") t.prettyOutput } := by
  unfold overlayPrettyOutput prettyVal
  split <;> rfl

theorem overlayHeaders_eq (src : JSValue) (t : AppOptions) :
    overlayHeaders src t =
      { t with getHeaders := headersVal (jsGet src "getHeaders") t.getHeaders } := by
  unfold overlayHeaders headersVal
  split <;> rfl

theorem overlayPaths_eq (src : JSValue) (t : AppOptions) :
    overlayPaths src t =
      { t with getPaths := pathsVal (jsGet src "getPaths") t.getPaths } := by
  unfold overlayPaths pathsVal
  split <;> rfl

theorem overlayCorsTS_eq (src : JSValue) (t : AppOptions) :
    overlayCorsTS src t =
      { t with cors := corsValTS (jsGet src "cors") t.cors } := by
  unfold overlayCorsTS corsValTS
  dsimp only
  repeat' split
  all_goals rfl

theorem overlayCorsJS_eq (src : JSValue) (t : AppOptions) :
    overlayCorsJS src t =
      { t with cors := corsValJS (jsGet src "cors") t.cors } := by
  unfold overlayCorsJS corsValJS
  dsimp only
  repeat' split
  all_goals rfl

theorem overlayBackendTS_eq (p : Bool) (h : String) (src : JSValue)
    (t : AppOptions) :
    overlayBackendTS p h src t =
      { t with
        maxmind := (backendValTS p h (jsGet src "maxmind") (jsGet src "ip2location")
          t.maxmind t.ip2location).1
        ip2location := (backendValTS p h (jsGet src "maxmind")
          (jsGet src "ip2location") t.maxmind t.ip2location).2 } := by
  unfold overlayBackendTS backendValTS
  dsimp only
  repeat' split
  all_goals simp_all

theorem overlayBackendJS_eq (p : Bool) (h : String) (src : JSValue)
    (t : AppOptions) :
    overlayBackendJS p h src t =
      { t with
        maxmind := (backendValJS p h (jsGet src "maxmind") (jsGet src "ip2location")
          t.maxmind t.ip2location).1
        ip2location := (backendValJS p h (jsGet src "maxmind")
          (jsGet src "ip2location") t.maxmind t.ip2location).2 } := by
  unfold overlayBackendJS backendValJS
  dsimp only
  repeat' split
  all_goals simp_all

/-- Property reads on a non-object value give undefined. -/
theorem jsGet_non_object (src : JSValue) (hsrc : jsInstanceOfObject src = false)
    (k : String) : jsGet src k = .undefined := by
  rcases src <;> simp_all [jsInstanceOfObject, jsGet]

/-- Both overlays return the defaults untouched for a non-object source. -/
theorem overlayOptions_non_object (cwd homedir : String) (p : Bool) (src : JSValue)
    (hsrc : jsInstanceOfObject src = false) :
    overlayOptionsTS cwd homedir p src = getDefaultOptions cwd ∧
    overlayOptionsJS cwd homedir p src = getDefaultOptions cwd := by
  unfold overlayOptionsTS overlayOptionsJS
  rw [hsrc]
  exact ⟨rfl, rfl⟩

/-- Normal form of the TS overlay on an object source: each configuration
field is the value its block computes from its own source property. -/
theorem overlayOptionsTS_normal (cwd homedir : String) (p : Bool) (src : JSValue)
    (hsrc : jsInstanceOfObject src = true) :
    overlayOptionsTS cwd homedir p src =
      { logLevel := logLevelValTS (jsGet src "logLevel") (JSNum.num 3)
        port := portValTS (jsGet src "port") (JSNum.num 3000)
        enabledOutputs := outputsValTS (jsGet src "enabledOutputs")
          { country := true, subdivision := true, ip := false
            ip_version := false, data := false }
        prettyOutput := prettyVal (jsGet src "prettyOutput") false
        getHeaders := headersVal (jsGet src "getHeaders") []
        getPaths := pathsVal (jsGet src "getPaths") ["/", "/*"]
        cors := corsValTS (jsGet src "cors") { origins := none, originRegEx := none }
        maxmind := (backendValTS p homedir (jsGet src "maxmind")
          (jsGet src "ip2location") { dbPath := cwd ++ "/GeoLite2-Country.mmdb" }
          { dbPath := "", subdivisionCsvPath := "" }).1
        ip2location := (backendValTS p homedir (jsGet src "maxmind")
          (jsGet src "ip2location") { dbPath := cwd ++ "/GeoLite2-Country.mmdb" }
          { dbPath := "", subdivisionCsvPath := "" }).2 } := by
  unfold overlayOptionsTS
  rw [hsrc]
  dsimp only
  rw [overlayLogLevelTS_eq, overlayPortTS_eq, overlayOutputsTS_eq,
    overlayPrettyOutput_eq, overlayHeaders_eq, overlayPaths_eq, overlayCorsTS_eq,
    overlayBackendTS_eq]
  rfl

/-- Normal form of the JS overlay on an object source. -/
theorem overlayOptionsJS_normal (cwd homedir : String) (p : Bool) (src : JSValue)
    (hsrc : jsInstanceOfObject src = true) :
    overlayOptionsJS cwd homedir p src =
      { logLevel := logLevelValJS (jsGet src "logLevel") (JSNum.num 3)
        port := portValJS (jsGet src "port") (JSNum.num 3000)
        enabledOutputs := outputsValJS (jsGet src "enabledOutputs")
          { country := true, subdivision := true, ip := false
            ip_version := false, data := false }
        prettyOutput := prettyVal (jsGet src "prettyOutput") false
        getHeaders := headersVal (jsGet src "getHeaders") []
        getPaths := pathsVal (jsGet src "getPaths") ["/", "/*"]
        cors := corsValJS (jsGet src "cors") { origins := none, originRegEx := none }
        maxmind := (backendValJS p homedir (jsGet src "maxmind")
          (jsGet src "ip2location") { dbPath := cwd ++ "/GeoLite2-Country.mmdb" }
          { dbPath := "", subdivisionCsvPath := "" }).1
        ip2location := (backendValJS p homedir (jsGet src "maxmind")
          (jsGet src "ip2location") { dbPath := cwd ++ "/GeoLite2-Country.mmdb" }
          { dbPath := "", subdivisionCsvPath := "" }).2 } := by
  unfold overlayOptionsJS
  rw [hsrc]
  dsimp only
  rw [overlayLogLevelJS_eq, overlayPortJS_eq, overlayOutputsJS_eq,
    overlayPrettyOutput_eq, overlayHeaders_eq, overlayPaths_eq, overlayCorsJS_eq,
    overlayBackendJS_eq]
  rfl

/-- The TS port block accepts exactly finite numbers between 0 and 65535. -/
theorem portValTS_spec (v : JSValue) (dflt : JSNum) :
    portValTS v dflt =
      match v with
      | .number (.num q) => if 0 ≤ q ∧ q ≤ 65535 then .num (⌊q⌋ : Int) else dflt
      | _ => dflt := by
  unfold portValTS
  rcases v with _ | _ | b | n | s | xs | fs | r <;> try rfl
  rcases n with q | _ | pos
  · by_cases h0 : (0 : Rat) ≤ q <;> by_cases h1 : q ≤ 65535 <;>
      simp [jsNumGE, jsNumLE, jsNumFloor, h0, h1]
  · rfl
  · rcases pos <;> rfl

/-- The TS log level block accepts exactly finite numbers between 0 and 4. -/
theorem logLevelValTS_spec (v : JSValue) (dflt : JSNum) :
    logLevelValTS v dflt =
      match v with
      | .number (.num q) => if 0 ≤ q ∧ q ≤ 4 then .num (⌊q⌋ : Int) else dflt
      | _ => dflt := by
  unfold logLevelValTS
  rcases v with _ | _ | b | n | s | xs | fs | r <;> try rfl
  rcases n with q | _ | pos
  · by_cases h0 : (0 : Rat) ≤ q <;> by_cases h1 : q ≤ 4 <;>
      simp [jsNumGE, jsNumLE, jsNumFloor, h0, h1]
  · rfl
  · rcases pos <;> rfl

/-! ## Claim C6, about the numeric fields of the overlays -/

/-- C6 counterexample: the JavaScript overlayOptions accepts a port of
100000, which is a number outside 0..65535, and rejects the in-range
number 0 - both contradicting the claimed acceptance condition. -/
theorem overlay_numeric_counterexample :
    (overlayOptionsJS "/w" "/h" true
      (.obj [("port", .number (.num 100000))])).port = .num 100000 ∧
    ¬ ((100000 : Rat) ≤ 65535) ∧
    (overlayOptionsJS "/w" "/h" true
      (.obj [("port", .number (.num 0))])).port = .num 3000 ∧
    (0 : Rat) ≤ 0 ∧ (0 : Rat) ≤ 65535 := by
  refine ⟨by decide, by decide, by decide, by decide, by decide⟩

/-- C6 (amended): the TypeScript overlayOptions overrides logLevel exactly
for a finite number between 0 and 4 and port exactly for a finite number
between 0 and 65535, flooring the accepted value; the JavaScript
overlayOptions instead accepts any port whose coerced numeric value is
strictly positive (no upper bound, 0 excluded), flooring the coerced value. -/
theorem overlay_numeric_validation (cwd homedir : String) (p : Bool)
    (src : JSValue) :
    ((overlayOptionsTS cwd homedir p src).logLevel =
      match jsGet src "logLevel" with
      | .number (.num q) => if 0 ≤ q ∧ q ≤ 4 then .num (⌊q⌋ : Int) else .num 3
      | _ => .num 3) ∧
    ((overlayOptionsTS cwd homedir p src).port =
      match jsGet src "port" with
      | .number (.num q) =>
          if 0 ≤ q ∧ q ≤ 65535 then .num (⌊q⌋ : Int) else .num 3000
      | _ => .num 3000) ∧
    ((overlayOptionsJS cwd homedir p src).port =
      if jsNumGT (toNumber (jsGet src "port")) (.num 0) = true then
        jsNumFloor (toNumber (jsGet src "port"))
      else .num 3000) := by
  by_cases hsrc : jsInstanceOfObject src = true
  · rw [overlayOptionsTS_normal cwd homedir p src hsrc,
      overlayOptionsJS_normal cwd homedir p src hsrc]
    refine ⟨?_, ?_, ?_⟩
    · exact logLevelValTS_spec (jsGet src "logLevel") (.num 3)
    · exact portValTS_spec (jsGet src "port") (.num 3000)
    · unfold portValJS
      split <;> rfl
  · have hf : jsInstanceOfObject src = false := by simpa using hsrc
    have hnon := overlayOptions_non_object cwd homedir p src hf
    rw [hnon.1, hnon.2]
    simp only [jsGet_non_object src hf]
    exact ⟨rfl, rfl, rfl⟩

/-! ## Claim C5, backend exclusivity of the TS overlay -/

/-- A property read that is not undefined can only come from an object. -/
theorem jsGet_object_of_ne_undef (v : JSValue) (k : String)
    (h : jsGet v k ≠ .undefined) : jsInstanceOfObject v = true := by
  rcases v <;> simp_all [jsGet, jsInstanceOfObject]

/-- Exclusivity at the backend block: starting from a blank ip2location
path, the result never has both paths non-blank. -/
theorem backendValTS_excl (p : Bool) (h : String) (mmv i2lv : JSValue)
    (mm : MaxMindOptions) (i2l : IP2LocationOptions) (hi : i2l.dbPath = "") :
    (backendValTS p h mmv i2lv mm i2l).2.dbPath ≠ "" →
      (backendValTS p h mmv i2lv mm i2l).1.dbPath = "" := by
  unfold backendValTS
  dsimp only
  repeat' split
  all_goals simp_all

/-- A non-blank (after trimming) string maxmind.dbPath makes the backend
block return the expanded MaxMind path and leave ip2location untouched,
whatever the ip2location source field holds. -/
theorem backendValTS_maxmind_wins (p : Bool) (h : String) (mmv i2lv : JSValue)
    (mm : MaxMindOptions) (i2l : IP2LocationOptions) (s : String)
    (hs : jsGet mmv "dbPath" = .str s) (hns : jsTrim s ≠ "") :
    backendValTS p h mmv i2lv mm i2l =
      ({ dbPath := expandTildePath p h (jsTrim s) }, i2l) := by
  have hobj : jsInstanceOfObject mmv = true :=
    jsGet_object_of_ne_undef mmv "dbPath" (by rw [hs]; intro hcon; cases hcon)
  unfold backendValTS
  rw [hobj, hs]
  simp [hns]

/-- getDbOptions in conditional form. -/
theorem getDbOptions_spec (a : AppOptions) :
    getDbOptions a =
      if a.maxmind.dbPath ≠ "" then
        { dbProvider := .MAXMIND, maxMindOptions := some a.maxmind
          ip2LocationOptions := none }
      else if a.ip2location.dbPath ≠ "" then
        { dbProvider := .IP2LOCATION, maxMindOptions := none
          ip2LocationOptions := some a.ip2location }
      else
        { dbProvider := .UNKNOWN, maxMindOptions := none
          ip2LocationOptions := none } := by
  unfold getDbOptions
  by_cases h1 : a.maxmind.dbPath = "" <;> by_cases h2 : a.ip2location.dbPath = "" <;>
    simp [h1, h2]

/-- C5: the TS overlay keeps at most one backend path non-blank: a non-blank
string maxmind.dbPath wins unconditionally (ip2location stays at its blank
defaults and the result does not depend on the source's ip2location field),
and getDbOptions on the overlaid configuration selects MAXMIND whenever the
MaxMind path is non-empty and never constructs both backends. -/
theorem overlayTS_backend_exclusive (cwd homedir : String) (p : Bool)
    (src : JSValue) :
    ((overlayOptionsTS cwd homedir p src).ip2location.dbPath ≠ "" →
      (overlayOptionsTS cwd homedir p src).maxmind.dbPath = "") ∧
    ((overlayOptionsTS cwd homedir p src).maxmind.dbPath ≠ "" →
      getDbOptions (overlayOptionsTS cwd homedir p src) =
        { dbProvider := .MAXMIND
          maxMindOptions := some (overlayOptionsTS cwd homedir p src).maxmind
          ip2LocationOptions := none }) ∧
    ¬ ((getDbOptions (overlayOptionsTS cwd homedir p src)).maxMindOptions.isSome ∧
       (getDbOptions (overlayOptionsTS cwd homedir p src)).ip2LocationOptions.isSome) ∧
    (∀ s, jsGet (jsGet src "maxmind") "dbPath" = .str s → jsTrim s ≠ "" →
      (overlayOptionsTS cwd homedir p src).ip2location =
        { dbPath := "", subdivisionCsvPath := "" } ∧
      (overlayOptionsTS cwd homedir p src).maxmind =
        { dbPath := expandTildePath p homedir (jsTrim s) } ∧
      ∀ src2, jsInstanceOfObject src2 = jsInstanceOfObject src →
        (∀ k, k ≠ "ip2location" → jsGet src2 k = jsGet src k) →
        overlayOptionsTS cwd homedir p src2 = overlayOptionsTS cwd homedir p src) := by
  have hexcl : (overlayOptionsTS cwd homedir p src).ip2location.dbPath ≠ "" →
      (overlayOptionsTS cwd homedir p src).maxmind.dbPath = "" := by
    by_cases hsrc : jsInstanceOfObject src = true
    · rw [overlayOptionsTS_normal cwd homedir p src hsrc]
      exact backendValTS_excl p homedir _ _ _ _ rfl
    · have hf : jsInstanceOfObject src = false := by simpa using hsrc
      rw [(overlayOptions_non_object cwd homedir p src hf).1]
      intro hcon
      exact absurd rfl hcon
  refine ⟨hexcl, ?_, ?_, ?_⟩
  · intro hmm
    rw [getDbOptions_spec, if_pos hmm]
  · rw [getDbOptions_spec]
    by_cases h1 : (overlayOptionsTS cwd homedir p src).maxmind.dbPath ≠ "" <;>
      by_cases h2 : (overlayOptionsTS cwd homedir p src).ip2location.dbPath ≠ "" <;>
      simp [h1, h2]
  · intro s hs hns
    have hmmobj : jsInstanceOfObject src = true := by
      apply jsGet_object_of_ne_undef src "maxmind"
      intro hundef
      rw [hundef] at hs
      cases hs
    have hwins := backendValTS_maxmind_wins p homedir (jsGet src "maxmind")
      (jsGet src "ip2location") { dbPath := cwd ++ "/GeoLite2-Country.mmdb" }
      { dbPath := "", subdivisionCsvPath := "" } s hs hns
    refine ⟨?_, ?_, ?_⟩
    · rw [overlayOptionsTS_normal cwd homedir p src hmmobj]
      show (backendValTS _ _ _ _ _ _).2 = _
      rw [hwins]
    · rw [overlayOptionsTS_normal cwd homedir p src hmmobj]
      show (backendValTS _ _ _ _ _ _).1 = _
      rw [hwins]
    · intro src2 hinst hag
      have hsrc2 : jsInstanceOfObject src2 = true := hinst.trans hmmobj
      rw [overlayOptionsTS_normal cwd homedir p src hmmobj,
        overlayOptionsTS_normal cwd homedir p src2 hsrc2]
      rw [hag "logLevel" (by decide), hag "port" (by decide),
        hag "enabledOutputs" (by decide), hag "prettyOutput" (by decide),
        hag "getHeaders" (by decide), hag "getPaths" (by decide),
        hag "cors" (by decide), hag "maxmind" (by decide)]
      have hwins2 := backendValTS_maxmind_wins p homedir (jsGet src "maxmind")
        (jsGet src2 "ip2location") { dbPath := cwd ++ "/GeoLite2-Country.mmdb" }
        { dbPath := "", subdivisionCsvPath := "" } s hs hns
      rw [hwins, hwins2]

/-- C5 witness: a source with both backends configured yields a MaxMind-only
configuration, identical to the one obtained without the ip2location entry. -/
theorem overlayTS_backend_exclusive_witness :
    (overlayOptionsTS "/w" "/h" true
      (.obj [("maxmind", .obj [("dbPath", .str "/geo.mmdb")]),
             ("ip2location", .obj [("dbPath", .str "/geo.bin")])])).ip2location =
      { dbPath := "", subdivisionCsvPath := "" } ∧
    (overlayOptionsTS "/w" "/h" true
      (.obj [("maxmind", .obj [("dbPath", .str "/geo.mmdb")]),
             ("ip2location", .obj [("dbPath", .str "/geo.bin")])])).maxmind =
      { dbPath := expandTildePath true "/h" (jsTrim "/geo.mmdb") } :=
  ⟨((overlayTS_backend_exclusive "/w" "/h" true
      (.obj [("maxmind", .obj [("dbPath", .str "/geo.mmdb")]),
             ("ip2location", .obj [("dbPath", .str "/geo.bin")])])).2.2.2
    "/geo.mmdb" rfl (by decide)).1,
   ((overlayTS_backend_exclusive "/w" "/h" true
      (.obj [("maxmind", .obj [("dbPath", .str "/geo.mmdb")]),
             ("ip2location", .obj [("dbPath", .str "/geo.bin")])])).2.2.2
    "/geo.mmdb" rfl (by decide)).2.1⟩

/-! ## Claim C10, equivalence of the two overlays -/

/-- Membership in the dedup fold. -/
theorem mem_foldl_dedup (l : List String) (acc : List String) (x : String) :
    x ∈ l.foldl (fun a y => if y ∈ a then a else a ++ [y]) acc ↔
      x ∈ acc ∨ x ∈ l := by
  induction l generalizing acc with
  | nil => simp
  | cons y ys ih =>
      rw [List.foldl_cons]
      by_cases hy : y ∈ acc
      · rw [if_pos hy, ih]
        constructor
        · rintro (hx | hx)
          · exact Or.inl hx
          · exact Or.inr (List.mem_cons_of_mem _ hx)
        · rintro (hx | hx)
          · exact Or.inl hx
          · rcases List.mem_cons.mp hx with he | hm
            · exact Or.inl (he ▸ hy)
            · exact Or.inr hm
      · rw [if_neg hy, ih]
        constructor
        · rintro (hx | hx)
          · rcases List.mem_append.mp hx with ha | hs
            · exact Or.inl ha
            · exact Or.inr (List.mem_cons.mpr (Or.inl (List.mem_singleton.mp hs)))
          · exact Or.inr (List.mem_cons_of_mem _ hx)
        · rintro (hx | hx)
          · exact Or.inl (List.mem_append.mpr (Or.inl hx))
          · rcases List.mem_cons.mp hx with he | hm
            · exact Or.inl (List.mem_append.mpr (Or.inr (List.mem_singleton.mpr he)))
            · exact Or.inr hm

/-- dedupFirst preserves membership. -/
theorem mem_dedupFirst (l : List String) (x : String) :
    x ∈ dedupFirst l ↔ x ∈ l := by
  unfold dedupFirst
  rw [mem_foldl_dedup]
  simp

/-- Whether a JS value is a boolean. -/
def isBoolVal : JSValue → Bool
  | .bool _ => true
  | _ => false

/-- The boolean carried by a JS value (false otherwise). -/
def boolVal : JSValue → Bool
  | .bool b => b
  | _ => false

theorem isBoolVal_exists (w : JSValue) (h : isBoolVal w = true) :
    ∃ b, w = .bool b := by
  cases w
  case bool b => exact ⟨b, rfl⟩
  all_goals simp [isBoolVal] at h

/-- A boolean property can only be read from a key the object really has
(for a non-index key). -/
theorem mem_jsKeys_of_isBoolVal (v : JSValue) (kf : String)
    (hidx : canonicalIndex kf = none) (h : isBoolVal (jsGet v kf) = true) :
    kf ∈ jsKeys v := by
  cases v
  case arr xs =>
    simp [jsGet, hidx, isBoolVal] at h
  case obj fs =>
    simp only [jsGet] at h
    unfold jsKeys
    rw [mem_dedupFirst]
    rcases hg : objGet fs kf with _ | w
    · rw [hg] at h
      simp [isBoolVal] at h
    · have hm := (objGet_isSome_iff_mem fs kf).mp (by rw [hg]; rfl)
      simpa [objKeys] using hm
  all_goals simp [jsGet, isBoolVal] at h

theorem setOutput_country (eo : EnabledOutputs) (k : String) (b : Bool) :
    (setOutput eo k b).country = if k = "country" then b else eo.country := by
  unfold setOutput
  split <;> simp_all

theorem setOutput_subdivision (eo : EnabledOutputs) (k : String) (b : Bool) :
    (setOutput eo k b).subdivision =
      if k = "subdivision" then b else eo.subdivision := by
  unfold setOutput
  split <;> simp_all

theorem setOutput_ip (eo : EnabledOutputs) (k : String) (b : Bool) :
    (setOutput eo k b).ip = if k = "ip" then b else eo.ip := by
  unfold setOutput
  split <;> simp_all

theorem setOutput_ip_version (eo : EnabledOutputs) (k : String) (b : Bool) :
    (setOutput eo k b).ip_version =
      if k = "ip_version" then b else eo.ip_version := by
  unfold setOutput
  split <;> simp_all

theorem setOutput_data (eo : EnabledOutputs) (k : String) (b : Bool) :
    (setOutput eo k b).data = if k = "data" then b else eo.data := by
  unfold setOutput
  split <;> simp_all

/-- Value of one toggle after folding the forEach body over a key list. -/
theorem outputsFold_getter (v : JSValue) (g : EnabledOutputs → Bool) (kf : String)
    (hg : ∀ eo k b, g (setOutput eo k b) = if k = kf then b else g eo)
    (l : List String) (eo : EnabledOutputs) :
    g (l.foldl (outputsStep v) eo) =
      if kf ∈ l ∧ isBoolVal (jsGet v kf) = true then boolVal (jsGet v kf)
      else g eo := by
  induction l generalizing eo with
  | nil => simp
  | cons k rest ih =>
      rw [List.foldl_cons, ih]
      by_cases hsup : isBoolVal (jsGet v kf) = true
      · by_cases hmem : kf ∈ rest
        · rw [if_pos ⟨hmem, hsup⟩, if_pos ⟨List.mem_cons_of_mem _ hmem, hsup⟩]
        · rw [if_neg (fun hc => hmem hc.1)]
          by_cases hk : k = kf
          · subst hk
            obtain ⟨b, hjb⟩ := isBoolVal_exists _ hsup
            rw [if_pos ⟨List.mem_cons_self k rest, hsup⟩]
            unfold outputsStep
            rw [hjb]
            simp [hg, boolVal]
          · have hstep : g (outputsStep v eo k) = g eo := by
              unfold outputsStep
              rcases jsGet v k with _ | _ | b | n | s | xs | fs | r <;>
                simp [hg, hk]
            rw [hstep,
              if_neg (fun hc => by
                rcases List.mem_cons.mp hc.1 with he | hm
                · exact hk he.symm
                · exact hmem hm)]
      · rw [if_neg (fun hc => hsup hc.2), if_neg (fun hc => hsup hc.2)]
        unfold outputsStep
        by_cases hk : k = kf
        · subst hk
          rcases hjb : jsGet v k with _ | _ | b | n | s | xs | fs | r <;>
            simp_all [isBoolVal]
        · rcases jsGet v k with _ | _ | b | n | s | xs | fs | r <;>
            simp [hg, hk]

theorem EnabledOutputs.ext' {a b : EnabledOutputs} (h1 : a.country = b.country)
    (h2 : a.subdivision = b.subdivision) (h3 : a.ip = b.ip)
    (h4 : a.ip_version = b.ip_version) (h5 : a.data = b.data) : a = b := by
  cases a; cases b; simp_all

/-- The TS and JS enabled-outputs blocks are extensionally equal. -/
theorem outputsVal_TS_eq_JS (v : JSValue) (eo : EnabledOutputs) :
    outputsValTS v eo = outputsValJS v eo := by
  unfold outputsValTS outputsValJS
  by_cases hobj : jsInstanceOfObject v = true
  · rw [if_pos hobj, if_pos hobj]
    have key : ∀ (g : EnabledOutputs → Bool) (kf : String),
        (∀ eo k b, g (setOutput eo k b) = if k = kf then b else g eo) →
        kf ∈ knownOutputs → canonicalIndex kf = none →
        g (knownOutputs.foldl (outputsStep v) eo) =
          g (((jsKeys v).filter
            (fun output => knownOutputs.contains output)).foldl (outputsStep v) eo) := by
      intro g kf hg hkn hidx
      rw [outputsFold_getter v g kf hg, outputsFold_getter v g kf hg]
      by_cases hsup : isBoolVal (jsGet v kf) = true
      · have hmemk : kf ∈ jsKeys v := mem_jsKeys_of_isBoolVal v kf hidx hsup
        have hmemf : kf ∈ (jsKeys v).filter
            (fun output => knownOutputs.contains output) := by
          rw [List.mem_filter]
          exact ⟨hmemk, by simpa [knownOutputs] using hkn⟩
        rw [if_pos ⟨hkn, hsup⟩, if_pos ⟨hmemf, hsup⟩]
      · rw [if_neg (fun hc => hsup hc.2), if_neg (fun hc => hsup hc.2)]
    exact EnabledOutputs.ext'
      (key (fun e => e.country) "country" setOutput_country (by decide) (by decide))
      (key (fun e => e.subdivision) "subdivision" setOutput_subdivision
        (by decide) (by decide))
      (key (fun e => e.ip) "ip" setOutput_ip (by decide) (by decide))
      (key (fun e => e.ip_version) "ip_version" setOutput_ip_version
        (by decide) (by decide))
      (key (fun e => e.data) "data" setOutput_data (by decide) (by decide))
  · rw [if_neg hobj, if_neg hobj]

/-- The TS and JS cors blocks are extensionally equal. -/
theorem corsVal_TS_eq_JS (v : JSValue) (c : CorsOptions) :
    corsValTS v c = corsValJS v c := by
  unfold corsValTS corsValJS
  by_cases hobj : jsInstanceOfObject v = true
  · rw [if_pos hobj, if_pos hobj]
    dsimp only
    rcases jsGet v "originRegEx" with _ | _ | b | n | s | xs | fs | r
    · rfl
    · rfl
    · cases b <;> rfl
    · cases hT : jsTruthy (JSValue.number n) <;> rfl
    · by_cases hs : s = "" <;> simp [jsTruthy, regExSettingTruthy, hs]
    · rfl
    · rfl
    · rfl
  · rw [if_neg hobj, if_neg hobj]

/-- A source field that holds a string equal to its own trim (or no string
at all). -/
def strFieldTrimmed : JSValue → Prop
  | .str s => jsTrim s = s
  | _ => True

/-- Under trim-invariant path strings, the TS and JS backend blocks agree. -/
theorem backendVal_TS_eq_JS (p : Bool) (h : String) (mmv i2lv : JSValue)
    (mm : MaxMindOptions) (i2l : IP2LocationOptions)
    (h1 : strFieldTrimmed (jsGet mmv "dbPath"))
    (h2 : strFieldTrimmed (jsGet i2lv "dbPath"))
    (h3 : strFieldTrimmed (jsGet i2lv "subdivisionCsvPath")) :
    backendValTS p h mmv i2lv mm i2l = backendValJS p h mmv i2lv mm i2l := by
  unfold backendValTS backendValJS
  dsimp only
  rcases hm : jsGet mmv "dbPath" with _ | _ | b | n | s | xs | fs | r <;>
    rw [hm] at h1 <;>
    rcases hi : jsGet i2lv "dbPath" with _ | _ | b2 | n2 | s2 | xs2 | fs2 | r2 <;>
    rw [hi] at h2 <;>
    rcases hc : jsGet i2lv "subdivisionCsvPath" with
      _ | _ | b3 | n3 | s3 | xs3 | fs3 | r3 <;>
    rw [hc] at h3 <;>
    (try unfold strFieldTrimmed at h1) <;>
    (try unfold strFieldTrimmed at h2) <;>
    (try unfold strFieldTrimmed at h3) <;>
    first
      | rfl
      | simp only [h1, h2, h3]

/-- The logLevel source fields on which the two overlays agree. -/
def logLevelFieldAgrees : JSValue → Prop
  | .undefined => True
  | .number _ => True
  | _ => False

/-- The port source fields on which the two overlays agree. -/
def portFieldAgrees : JSValue → Prop
  | .undefined => True
  | .null => True
  | .number .nan => True
  | .number (.inf false) => True
  | .number (.num q) => q < 0 ∨ (0 < q ∧ q ≤ 65535)
  | _ => False

theorem logLevelVal_agree (v : JSValue) (dflt : JSNum)
    (h : logLevelFieldAgrees v) : logLevelValTS v dflt = logLevelValJS v dflt := by
  cases v
  case undefined => rfl
  case number n => rfl
  all_goals exact False.elim h

theorem portVal_agree (v : JSValue) (dflt : JSNum)
    (h : portFieldAgrees v) : portValTS v dflt = portValJS v dflt := by
  cases v
  case undefined => rfl
  case null =>
      unfold portValTS portValJS
      rw [show jsNumGT (toNumber JSValue.null) (.num 0) = false from by decide]
      rfl
  case number n =>
      rcases n with q | _ | pos
      · have hT : portValTS (JSValue.number (JSNum.num q)) dflt =
            if (jsNumGE (JSNum.num q) (JSNum.num 0) &&
                jsNumLE (JSNum.num q) (JSNum.num 65535)) = true then
              jsNumFloor (JSNum.num q) else dflt := rfl
        have hJ : portValJS (JSValue.number (JSNum.num q)) dflt =
            if jsNumGT (JSNum.num q) (JSNum.num 0) = true then
              jsNumFloor (JSNum.num q) else dflt := rfl
        rw [hT, hJ]
        rcases h with hneg | ⟨hpos, hle⟩
        · rw [show (jsNumGE (JSNum.num q) (.num 0) &&
              jsNumLE (JSNum.num q) (.num 65535)) = false from by
                simp [jsNumGE, jsNumLE, not_le.mpr hneg],
            show jsNumGT (JSNum.num q) (.num 0) = false from by
              simp [jsNumGT, jsNumLT, not_lt.mpr (le_of_lt hneg)]]
        · rw [show (jsNumGE (JSNum.num q) (.num 0) &&
              jsNumLE (JSNum.num q) (.num 65535)) = true from by
                simp [jsNumGE, jsNumLE, le_of_lt hpos, hle],
            show jsNumGT (JSNum.num q) (.num 0) = true from by
              simp [jsNumGT, jsNumLT, hpos]]
      · rfl
      · cases pos
        · rfl
        · exact False.elim h
  all_goals exact False.elim h

/-- C10 counterexample: on the source `{port: 0}` the TypeScript
overlayOptions keeps port 0 (0 is within 0..65535) while the JavaScript
overlayOptions keeps the default 3000 (its test is `src.port > 0`), so the
two implementations are not extensionally equal. -/
theorem overlayOptions_equiv_counterexample :
    (overlayOptionsTS "/w" "/h" true
      (.obj [("port", .number (.num 0))])).port = .num 0 ∧
    (overlayOptionsJS "/w" "/h" true
      (.obj [("port", .number (.num 0))])).port = .num 3000 ∧
    overlayOptionsTS "/w" "/h" true (.obj [("port", .number (.num 0))]) ≠
      overlayOptionsJS "/w" "/h" true (.obj [("port", .number (.num 0))]) := by
  refine ⟨by decide, by decide, fun he => ?_⟩
  have hp := congrArg AppOptions.port he
  revert hp
  decide

/-- C10 (amended): the two overlayOptions implementations agree on every
source whose logLevel field is absent or a number, whose port field is
absent, null, NaN, negative infinity, or a finite number that is negative or
in (0, 65535], and whose maxmind.dbPath, ip2location.dbPath and
ip2location.subdivisionCsvPath fields hold no string with surrounding
whitespace; they differ otherwise (port 0, ports above 65535, coercible
non-number fields, untrimmed paths). -/
theorem overlayOptions_TS_eq_JS (cwd homedir : String) (p : Bool) (src : JSValue)
    (hll : logLevelFieldAgrees (jsGet src "logLevel"))
    (hport : portFieldAgrees (jsGet src "port"))
    (hmm : strFieldTrimmed (jsGet (jsGet src "maxmind") "dbPath"))
    (hi2l : strFieldTrimmed (jsGet (jsGet src "ip2location") "dbPath"))
    (hcsv : strFieldTrimmed (jsGet (jsGet src "ip2location") "subdivisionCsvPath")) :
    overlayOptionsTS cwd homedir p src = overlayOptionsJS cwd homedir p src := by
  by_cases hsrc : jsInstanceOfObject src = true
  · rw [overlayOptionsTS_normal cwd homedir p src hsrc,
      overlayOptionsJS_normal cwd homedir p src hsrc,
      logLevelVal_agree _ _ hll, portVal_agree _ _ hport,
      outputsVal_TS_eq_JS, corsVal_TS_eq_JS,
      backendVal_TS_eq_JS p homedir _ _ _ _ hmm hi2l hcsv]
  · have hf : jsInstanceOfObject src = false := by simpa using hsrc
    rw [(overlayOptions_non_object cwd homedir p src hf).1,
      (overlayOptions_non_object cwd homedir p src hf).2]

/-! ## Claim C7, about the getHeaders overlay -/

/-- Whether a source header entry is accepted (string or null value). -/
def headerAccepted (getHeaders : JSValue) (k : String) : Bool :=
  match jsGet getHeaders k with
  | .str _ => true
  | .null => true
  | _ => false

/-- The value an accepted header entry stores (null becomes none). -/
def headerValue (getHeaders : JSValue) (k : String) : Option String :=
  match jsGet getHeaders k with
  | .str s => some s
  | _ => none

/-- The last accepted key of a case-insensitive class within a key list. -/
def lastHeaderKey (getHeaders : JSValue) (keys : List String) (c : String) :
    Option String :=
  (keys.filter (fun x => headerAccepted getHeaders x &&
    (asciiLower x = c : Bool))).getLast?

theorem objSet_of_not_mem {V : Type} (m : List (String × V)) (k : String) (v : V)
    (h : k ∉ objKeys m) : objSet m k v = m ++ [(k, v)] := by
  induction m with
  | nil => rfl
  | cons hd tl ih =>
      obtain ⟨k0, v0⟩ := hd
      have h1 : ¬ k0 = k := by
        intro e
        exact h (by simp [objKeys, e])
      have h2 : k ∉ objKeys tl := by
        intro hm
        apply h
        simp only [objKeys, List.map_cons, List.mem_cons]
        exact Or.inr hm
      simp [objSet, h1, ih h2]

theorem lastHeaderKey_append (h : JSValue) (P : List String) (key c : String) :
    lastHeaderKey h (P ++ [key]) c =
      if (headerAccepted h key && (asciiLower key = c : Bool)) = true then some key
      else lastHeaderKey h P c := by
  unfold lastHeaderKey
  rw [List.filter_append]
  by_cases hp : (headerAccepted h key && (asciiLower key = c : Bool)) = true
  · rw [if_pos hp,
      show List.filter (fun x => headerAccepted h x && (asciiLower x = c : Bool))
        [key] = [key] from by simp [hp]]
    exact List.getLast?_concat _
  · rw [if_neg hp,
      show List.filter (fun x => headerAccepted h x && (asciiLower x = c : Bool))
        [key] = [] from by simp [hp]]
    simp

/-- Membership in the map after applying an accepted header entry. -/
theorem applyHeader_mem_iff (h : JSValue) (P : List String) (key : String)
    (v0 : Option String)
    (ihT : ∀ k val, (k, val) ∈ P.foldl (headerStep h) [] ↔
      headerAccepted h k = true ∧
      lastHeaderKey h P (asciiLower k) = some k ∧
      val = headerValue h k)
    (hacc : headerAccepted h key = true) (hv0 : v0 = headerValue h key)
    (k : String) (val : Option String) :
    ((k, val) ∈ applyHeader (P.foldl (headerStep h) []) key v0 ↔
      headerAccepted h k = true ∧
      lastHeaderKey h (P ++ [key]) (asciiLower k) = some k ∧
      val = headerValue h k) := by
  have hlast : ∀ a va, (a, va) ∈ P.foldl (headerStep h) [] →
      lastHeaderKey h P (asciiLower a) = some a :=
    fun a va hm => ((ihT a va).mp hm).2.1
  unfold applyHeader
  rcases hdup : (objKeys (P.foldl (headerStep h) [])).find?
      (fun hh => asciiLower hh = asciiLower key) with _ | d
  · -- no staged key of this class
    have hno : ∀ x ∈ objKeys (P.foldl (headerStep h) []),
        ¬ asciiLower x = asciiLower key := by
      intro x hx
      have := List.find?_eq_none.mp hdup x hx
      simpa using this
    have hkeyout : key ∉ objKeys (P.foldl (headerStep h) []) :=
      fun hmem => hno key hmem rfl
    rw [objSet_of_not_mem _ _ _ hkeyout, List.mem_append,
      lastHeaderKey_append]
    by_cases hcl : asciiLower key = asciiLower k
    · rw [if_pos (by simp [hacc, hcl])]
      constructor
      · rintro (hin | hin)
        · have hkmem : k ∈ objKeys (P.foldl (headerStep h) []) := by
            simpa [objKeys] using List.mem_map_of_mem Prod.fst hin
          exact absurd hcl.symm (hno k hkmem)
        · rcases List.mem_singleton.mp hin with hkv
          have hk : k = key := congrArg Prod.fst hkv
          have hvv : val = v0 := congrArg Prod.snd hkv
          subst hk
          exact ⟨hacc, rfl, hvv.trans hv0⟩
      · rintro ⟨ha, hl, hv⟩
        have hk : key = k := Option.some_inj.mp hl
        subst hk
        exact Or.inr (by rw [List.mem_singleton, hv, hv0])
    · rw [if_neg (by simp [hacc]; intro hcon; exact hcl hcon)]
      constructor
      · rintro (hin | hin)
        · exact (ihT k val).mp hin
        · rcases List.mem_singleton.mp hin with hkv
          have hk : k = key := congrArg Prod.fst hkv
          exact absurd (by rw [hk]) hcl
      · intro hc
        exact Or.inl ((ihT k val).mpr hc)
  · -- a staged duplicate d of this class exists and is deleted
    have hdpred : asciiLower d = asciiLower key := by
      have := List.find?_some hdup
      simpa using this
    have hdmem : d ∈ objKeys (P.foldl (headerStep h) []) :=
      List.mem_of_find?_eq_some hdup
    obtain ⟨vd, hdpair2⟩ : ∃ x, (d, x) ∈ P.foldl (headerStep h) [] := by
      simpa [objKeys] using hdmem
    have hdlast : lastHeaderKey h P (asciiLower d) = some d :=
      hlast d vd hdpair2
    have hmem_filter : ∀ a va,
        ((a, va) ∈ (P.foldl (headerStep h) []).filter
          (fun q => !(q.1 = d : Bool))) ↔
        ((a, va) ∈ P.foldl (headerStep h) [] ∧ ¬ a = d) := by
      intro a va
      rw [List.mem_filter]
      simp
    have hkeyout : key ∉ objKeys ((P.foldl (headerStep h) []).filter
        (fun q => !(q.1 = d : Bool))) := by
      intro hmem
      obtain ⟨va, hp1⟩ : ∃ x, (key, x) ∈ (P.foldl (headerStep h) []).filter
          (fun q => !(q.1 = d : Bool)) := by
        simpa [objKeys] using hmem
      have := (hmem_filter key va).mp hp1
      have hklast : lastHeaderKey h P (asciiLower key) = some key :=
        hlast key va this.1
      rw [← hdpred] at hklast
      rw [hdlast] at hklast
      exact this.2 (Option.some_inj.mp hklast).symm
    rw [objSet_of_not_mem _ _ _ hkeyout, List.mem_append, lastHeaderKey_append]
    by_cases hcl : asciiLower key = asciiLower k
    · rw [if_pos (by simp [hacc, hcl])]
      constructor
      · rintro (hin | hin)
        · have hin2 := (hmem_filter k val).mp hin
          have hklast := hlast k val hin2.1
          rw [← hcl, ← hdpred] at hklast
          rw [hdlast] at hklast
          exact absurd (Option.some_inj.mp hklast).symm hin2.2
        · rcases List.mem_singleton.mp hin with hkv
          have hk : k = key := congrArg Prod.fst hkv
          have hvv : val = v0 := congrArg Prod.snd hkv
          subst hk
          exact ⟨hacc, rfl, hvv.trans hv0⟩
      · rintro ⟨ha, hl, hv⟩
        have hk : key = k := Option.some_inj.mp hl
        subst hk
        exact Or.inr (by rw [List.mem_singleton, hv, hv0])
    · rw [if_neg (by simp [hacc]; intro hcon; exact hcl hcon)]
      constructor
      · rintro (hin | hin)
        · exact (ihT k val).mp ((hmem_filter k val).mp hin).1
        · rcases List.mem_singleton.mp hin with hkv
          have hk : k = key := congrArg Prod.fst hkv
          exact absurd (by rw [hk]) hcl
      · intro hc
        refine Or.inl ((hmem_filter k val).mpr ⟨(ihT k val).mpr hc, ?_⟩)
        intro hkd
        apply hcl
        rw [← hdpred, hkd]

theorem headerStep_of_not_accepted (h : JSValue)
    (T : List (String × Option String)) (key : String)
    (hacc : headerAccepted h key = false) : headerStep h T key = T := by
  unfold headerStep
  unfold headerAccepted at hacc
  rcases hjv2 : jsGet h key <;> rw [hjv2] at hacc <;> simp_all

theorem headerStep_str (h : JSValue) (T : List (String × Option String))
    (key s : String) (hjv : jsGet h key = .str s) :
    headerStep h T key = applyHeader T key (some s) := by
  unfold headerStep
  rw [hjv]

theorem headerStep_null (h : JSValue) (T : List (String × Option String))
    (key : String) (hjv : jsGet h key = .null) :
    headerStep h T key = applyHeader T key none := by
  unfold headerStep
  rw [hjv]

/-- Membership characterization of the header fold over any key prefix. -/
theorem headersFold_mem_iff (h : JSValue) (P : List String) :
    ∀ (k : String) (val : Option String),
      ((k, val) ∈ P.foldl (headerStep h) [] ↔
        headerAccepted h k = true ∧
        lastHeaderKey h P (asciiLower k) = some k ∧
        val = headerValue h k) := by
  induction P using List.reverseRecOn with
  | nil =>
      intro k val
      simp [lastHeaderKey]
  | append_singleton P key ih =>
      intro k val
      rw [List.foldl_append, List.foldl_cons, List.foldl_nil]
      rcases hjv : jsGet h key with _ | _ | b | n | s | xs | fs | r
      case null =>
        have hacc : headerAccepted h key = true := by
          unfold headerAccepted
          rw [hjv]
        have hv0 : (none : Option String) = headerValue h key := by
          unfold headerValue
          rw [hjv]
        rw [headerStep_null h _ key hjv]
        exact applyHeader_mem_iff h P key none ih hacc hv0 k val
      case str =>
        have hacc : headerAccepted h key = true := by
          unfold headerAccepted
          rw [hjv]
        have hv0 : (some s : Option String) = headerValue h key := by
          unfold headerValue
          rw [hjv]
        rw [headerStep_str h _ key s hjv]
        exact applyHeader_mem_iff h P key (some s) ih hacc hv0 k val
      all_goals (
        have hacc : headerAccepted h key = false := by
          unfold headerAccepted
          rw [hjv]
        rw [headerStep_of_not_accepted h _ key hacc, ih k val,
          lastHeaderKey_append, if_neg (by simp [hacc])])

/-- C7: in the rebuilt header map, any two entries whose keys agree up to
letter case are the same entry; each accepted source key leaves exactly one
entry for its case-insensitive class, carrying the casing of the
last-applied key and the value of the last-applied entry; and only string
keys with string or null values are accepted at all. -/
theorem overlayHeadersMap_spec (h : JSValue) :
    (∀ k v, (k, v) ∈ overlayHeadersMap h ↔
      (headerAccepted h k = true ∧
       lastHeaderKey h (jsKeys h) (asciiLower k) = some k ∧
       v = headerValue h k)) ∧
    (∀ k1 v1 k2 v2, (k1, v1) ∈ overlayHeadersMap h →
      (k2, v2) ∈ overlayHeadersMap h →
      asciiLower k1 = asciiLower k2 → k1 = k2 ∧ v1 = v2) ∧
    (∀ k, k ∈ jsKeys h → headerAccepted h k = true →
      ∃ klast, lastHeaderKey h (jsKeys h) (asciiLower k) = some klast ∧
        asciiLower klast = asciiLower k ∧
        (klast, headerValue h klast) ∈ overlayHeadersMap h) := by
  have hmem : ∀ (k : String) (val : Option String),
      ((k, val) ∈ overlayHeadersMap h ↔
        headerAccepted h k = true ∧
        lastHeaderKey h (jsKeys h) (asciiLower k) = some k ∧
        val = headerValue h k) := headersFold_mem_iff h (jsKeys h)
  refine ⟨hmem, ?_, ?_⟩
  · intro k1 v1 k2 v2 h1 h2 hcl
    have c1 := (hmem k1 v1).mp h1
    have c2 := (hmem k2 v2).mp h2
    have hk : k1 = k2 := by
      have e1 := c1.2.1
      have e2 := c2.2.1
      rw [hcl] at e1
      rw [e2] at e1
      exact (Option.some_inj.mp e1).symm
    subst hk
    exact ⟨rfl, by rw [c1.2.2, c2.2.2]⟩
  · intro k hk hacc
    have hkfil : k ∈ (jsKeys h).filter
        (fun x => headerAccepted h x && (asciiLower x = asciiLower k : Bool)) := by
      rw [List.mem_filter]
      exact ⟨hk, by simp [hacc]⟩
    have hne : (jsKeys h).filter
        (fun x => headerAccepted h x && (asciiLower x = asciiLower k : Bool)) ≠ [] :=
      fun he => by rw [he] at hkfil; cases hkfil
    obtain ⟨klast, hklast⟩ : ∃ a, lastHeaderKey h (jsKeys h) (asciiLower k) = some a := by
      unfold lastHeaderKey
      cases hfl : (jsKeys h).filter
          (fun x => headerAccepted h x && (asciiLower x = asciiLower k : Bool)) with
      | nil => exact absurd hfl hne
      | cons x xs =>
          exact ⟨(x :: xs).getLast (by simp), List.getLast?_eq_getLast _ _⟩
    have hklmem : klast ∈ (jsKeys h).filter
        (fun x => headerAccepted h x && (asciiLower x = asciiLower k : Bool)) :=
      List.mem_of_mem_getLast? (by rw [← lastHeaderKey]; exact hklast ▸ rfl)
    have hklprop := List.mem_filter.mp hklmem
    have hklacc : headerAccepted h klast = true := by
      have := hklprop.2
      simp at this
      exact this.1
    have hklcl : asciiLower klast = asciiLower k := by
      have := hklprop.2
      simp at this
      exact this.2
    refine ⟨klast, hklast, hklcl, ?_⟩
    rw [hmem klast (headerValue h klast)]
    refine ⟨hklacc, ?_, rfl⟩
    rw [hklcl]
    exact hklast

/-- C7 witness: two source keys differing only in case leave one entry with
the last key's casing and value; the earlier entry is gone. -/
theorem overlayHeadersMap_spec_witness :
    ("x-hDr", some "b") ∈ overlayHeadersMap
      (.obj [("X-Hdr", .str "a"), ("x-hDr", .str "b")]) ∧
    ("X-Hdr", some "a") ∉ overlayHeadersMap
      (.obj [("X-Hdr", .str "a"), ("x-hDr", .str "b")]) :=
  ⟨((overlayHeadersMap_spec
      (.obj [("X-Hdr", .str "a"), ("x-hDr", .str "b")])).1 "x-hDr"
      (some "b")).mpr ⟨by decide, by decide, by decide⟩,
   fun hmem => by
    have := ((overlayHeadersMap_spec
      (.obj [("X-Hdr", .str "a"), ("x-hDr", .str "b")])).1 "X-Hdr"
      (some "a")).mp hmem
    exact absurd this.2.1 (by decide)⟩

/-! ## Model of `src/cors.ts` (GwaCors) and the WHATWG URL origin

The URL class is an external dependency; `urlOrigin` models
`new URL(o).origin` (none when the constructor throws).  It covers scheme
parsing, special-scheme authorities with optional ports and default-port
elision; non-special schemes yield the opaque origin serialization "null".
Userinfo, IPv6 hosts and percent-encoding are not modelled; no claim
depends on them. -/

/-- Characters allowed in a URL scheme after the first letter. -/
def isSchemeChar (c : Char) : Bool :=
  c.isAlpha || c.isDigit || c = '+' || c = '-' || c = '.'

/-- The special schemes with their default ports. -/
def specialSchemes : List (String × String) :=
  [("http", "80"), ("https", "443"), ("ws", "80"), ("wss", "443"), ("ftp", "21")]

/-- Model of `new URL(o).origin` (external WHATWG URL library). -/
def urlOrigin (s : String) : Option String :=
  let cs := (jsTrim s).toList
  match cs with
  | [] => none
  | c :: _ =>
      if !c.isAlpha then none
      else
        let schemeChars := cs.takeWhile isSchemeChar
        let afterScheme := cs.drop schemeChars.length
        match afterScheme with
        | ':' :: restU =>
            let scheme := (schemeChars.map asciiLowerChar).asString
            (match objGet specialSchemes scheme with
              | some defaultPort =>
                  let afterSlashes := restU.dropWhile (fun d => d = '/')
                  let authority := afterSlashes.takeWhile
                    (fun d => !(d = '/') && !(d = '?') && !(d = '#'))
                  let hostChars := authority.takeWhile (fun d => !(d = ':'))
                  if hostChars.isEmpty then none
                  else
                    let host := (hostChars.map asciiLowerChar).asString
                    if authority.length = hostChars.length then
                      some (scheme ++ "://" ++ host)
                    else
                      let portChars := authority.drop (hostChars.length + 1)
                      if portChars.all Char.isDigit then
                        let portNum := charsToNat portChars
                        if portChars.isEmpty || (natToStr portNum = defaultPort : Bool) then
                          some (scheme ++ "://" ++ host)
                        else if portNum ≤ 65535 then
                          some (scheme ++ "://" ++ host ++ ":" ++ natToStr portNum)
                        else none
                      else none
              | none => some "null")
        | _ => none

/-- Embedding of `GwaCors` state: the sanitized origin list and the origin
test of the stored RegExp (external), as a predicate. -/
structure GwaCors where
  origins_ : Option (List String)
  originRegEx_ : Option (String → Bool)

/-- Embedding of `GwaCors.sanitizeOrigins` (src/cors.ts lines 37-56); the
input is null (none) or an array of strings, per its TS type. -/
def sanitizeOrigins (origins : Option (List String)) : Option (List String) :=
  match origins with
  | none => none
  | some origins =>
      let sanitizedOrigins :=
        ((((origins.map (fun o => jsTrim o)).filter
          (fun s => !(s = "" : Bool))).map
            (fun o => match urlOrigin o with
              | some og => og
              | none => "")).filter (fun s => !(s = "" : Bool)))
      if sanitizedOrigins.length > 0 then some sanitizedOrigins else none

/-- Embedding of `GwaCors.isCorsOrigin` (src/cors.ts lines 96-102). -/
def isCorsOrigin (cors : GwaCors) (origin : String) : Bool :=
  !(origin = "" : Bool) &&
  ((match cors.origins_ with
    | some origins => origins.contains origin
    | none => false) ||
   (match cors.originRegEx_ with
    | some test => test origin
    | none => false))

/-- Embedding of `GwaCors.getCorsHeaders` (src/cors.ts lines 109-115). -/
def getCorsHeaders (cors : GwaCors) (origin : Option String) :
    Option (List (String × String)) :=
  match origin with
  | some o =>
      if !(o = "" : Bool) && isCorsOrigin cors o then
        some [("Access-Control-Allow-Origin", o)]
      else none
  | none => none

example : urlOrigin "https://example.com/" = some "https://example.com" := by decide
example : urlOrigin "not a url" = none := by decide
example : urlOrigin "http://Example.com:8080/a?b" = some "http://example.com:8080" := by
  decide
example : urlOrigin "mailto:x" = some "null" := by decide

/-! ## Claim C8, about sanitizeOrigins -/

/-- The sentinel-and-filter pipeline of sanitizeOrigins equals a direct
filterMap of trim, drop-blank, parse, drop-failures. -/
theorem sanitize_pipeline (l : List String) :
    ((((l.map (fun o => jsTrim o)).filter
      (fun s => !(s = "" : Bool))).map
        (fun o => match urlOrigin o with
          | some og => og
          | none => "")).filter (fun s => !(s = "" : Bool))) =
    l.filterMap (fun o =>
      let t := jsTrim o
      if t = "" then none
      else (urlOrigin t).bind (fun og => if og = "" then none else some og)) := by
  induction l with
  | nil => rfl
  | cons o rest ih =>
      simp only [List.map_cons, List.filter_cons, List.filterMap_cons]
      by_cases h1 : jsTrim o = ""
      · simp [h1, ih]
      · rcases hu : urlOrigin (jsTrim o) with _ | og
        · simp [h1, hu, ih]
        · by_cases h2 : og = "" <;> simp [h1, hu, h2, ih]

/-- C8: sanitizeOrigins trims every entry, drops blank entries, maps each
survivor through the URL parser keeping canonical origins and dropping
parse failures, and returns null rather than an empty list when nothing
survives; sanitizing ["not a url", "https://example.com/"] yields
["https://example.com"]. -/
theorem sanitizeOrigins_spec (origins : Option (List String)) :
    (sanitizeOrigins origins =
      match origins with
      | none => none
      | some l =>
          let cleaned := l.filterMap (fun o =>
            let t := jsTrim o
            if t = "" then none
            else (urlOrigin t).bind (fun og => if og = "" then none else some og))
          if cleaned.isEmpty then none else some cleaned) ∧
    sanitizeOrigins origins ≠ some [] ∧
    sanitizeOrigins (some ["not a url", "https://example.com/"]) =
      some ["https://example.com"] := by
  refine ⟨?_, ?_, by decide⟩
  · rcases origins with _ | l
    · rfl
    · unfold sanitizeOrigins
      dsimp only
      rw [sanitize_pipeline]
      rcases hfm : l.filterMap (fun o =>
          let t := jsTrim o
          if t = "" then none
          else (urlOrigin t).bind
            (fun og => if og = "" then none else some og)) with _ | ⟨x, xs⟩
      · rfl
      · simp
  · rcases origins with _ | l
    · intro hc
      cases hc
    · unfold sanitizeOrigins
      dsimp only
      split
      · rename_i hlen
        intro hc
        have he := Option.some_inj.mp hc
        rw [he] at hlen
        cases hlen
      · intro hc
        cases hc

/-- C8 witness: an all-invalid list sanitizes to null, never to the empty
list. -/
theorem sanitizeOrigins_spec_witness :
    sanitizeOrigins (some ["not a url", " "]) = none ∧
    sanitizeOrigins (some ["not a url"]) ≠ some [] :=
  ⟨by decide, (sanitizeOrigins_spec (some ["not a url"])).2.1⟩

/-! ## Claim C9, about isCorsOrigin and getCorsHeaders -/

/-- C9: isCorsOrigin holds exactly for a non-empty origin that equals an
entry of the stored sanitized list or matches the stored regex; with both
null every origin is refused; and getCorsHeaders grants exactly the
supplied allowed origin (no wildcard), otherwise null. -/
theorem isCorsOrigin_spec (cors : GwaCors) (origin : String) :
    (isCorsOrigin cors origin = true ↔
      origin ≠ "" ∧
      ((∃ l, cors.origins_ = some l ∧ origin ∈ l) ∨
       (∃ t, cors.originRegEx_ = some t ∧ t origin = true))) ∧
    (cors.origins_ = none → cors.originRegEx_ = none →
      isCorsOrigin cors origin = false) ∧
    (getCorsHeaders cors (some origin) =
      if isCorsOrigin cors origin = true then
        some [("Access-Control-Allow-Origin", origin)]
      else none) ∧
    getCorsHeaders cors none = none := by
  obtain ⟨o_, r_⟩ := cors
  refine ⟨?_, ?_, ?_, rfl⟩
  · unfold isCorsOrigin
    rcases o_ with _ | l <;> rcases r_ with _ | t <;>
      by_cases ho : origin = "" <;>
      simp [ho]
  · rintro rfl rfl
    unfold isCorsOrigin
    simp
  · unfold getCorsHeaders
    dsimp only
    by_cases hc : isCorsOrigin ⟨o_, r_⟩ origin = true
    · have ho : ¬ (origin = "") := by
        intro he
        unfold isCorsOrigin at hc
        rw [he] at hc
        simp at hc
      rw [if_pos hc]
      rw [if_pos (by simp [ho, hc])]
    · have hcf : isCorsOrigin ⟨o_, r_⟩ origin = false := by
        simpa using hc
      rw [if_neg hc, if_neg (by simp [hcf])]

/-- C9 witness: with both list and regex null, a typical origin is refused
and no header is emitted. -/
theorem isCorsOrigin_spec_witness :
    isCorsOrigin ⟨none, none⟩ "https://example.com" = false ∧
    getCorsHeaders ⟨none, none⟩ none = none :=
  ⟨(isCorsOrigin_spec ⟨none, none⟩ "https://example.com").2.1 rfl rfl,
   (isCorsOrigin_spec ⟨none, none⟩ "https://example.com").2.2.2⟩

/-- C10 witness: a well-behaved source is overlaid identically by the two
implementations. -/
theorem overlayOptions_TS_eq_JS_witness :
    overlayOptionsTS "/w" "/h" true
      (.obj [("port", .number (.num 8080)),
             ("logLevel", .number (.num 2)),
             ("maxmind", .obj [("dbPath", .str "/geo.mmdb")])]) =
    overlayOptionsJS "/w" "/h" true
      (.obj [("port", .number (.num 8080)),
             ("logLevel", .number (.num 2)),
             ("maxmind", .obj [("dbPath", .str "/geo.mmdb")])]) :=
  overlayOptions_TS_eq_JS "/w" "/h" true _
    (by simp [logLevelFieldAgrees, jsGet, objGet])
    (by
      right
      constructor
      · norm_num
      · norm_num)
    (by simp [strFieldTrimmed, jsGet, objGet]; decide)
    (by simp [strFieldTrimmed, jsGet, objGet])
    (by simp [strFieldTrimmed, jsGet, objGet])

end GeoipWebApi
